import Mathlib

/-!
Verification of the documentation-correctness pipeline of the ai-code-reviewer
repository: the metadata extractor (src/py_parser.py), the metrics engine
(core/metrics_engine.py), the AI-output validator
(core/docstring_engine/ai_validator.py) and the docstring post-processing
pipeline (core/docstring_engine/generator.py).

Python strings are modelled as `List Char`; Python sets of strings are
modelled as duplicate-free `List String` built by insertion order (`setAdd`).
Python floats are modelled as exact rationals `ℚ` (the quantities computed by
the code - confidence scores, correctness percentages - are small decimal
fractions for which binary-float rounding never changes the rounded-to-2(1)
decimal results asserted here). Regular-expression steps are translated
operationally (leftmost match, lazy and greedy quantifier semantics spelled
out case by case); character classes are the ASCII reading of the patterns.
-/

namespace AICodeReview

/-! ## Character and string primitives -/

/-- Python whitespace (`str.strip`, regex `\s`), ASCII range. -/
def isPySpace (c : Char) : Bool :=
  c = ' ' || c = '\t' || c = '\n' || c = '\r' || c = '\x0b' || c = '\x0c'

/-- Regex `\w` (ASCII reading): letters, digits, underscore. -/
def isWordChar (c : Char) : Bool :=
  c.isAlpha || c.isDigit || c = '_'

/-- `str.strip()` from the left. -/
def lstripL (s : List Char) : List Char := s.dropWhile isPySpace

/-- `str.strip()` from the right. -/
def rstripL (s : List Char) : List Char := (s.reverse.dropWhile isPySpace).reverse

/-- Python `str.strip()`. -/
def stripL (s : List Char) : List Char := rstripL (lstripL s)

/-- Python `str.lower()` (ASCII reading). -/
def lowerL (s : List Char) : List Char := s.map Char.toLower

/-- `pat in s` (Python substring containment). -/
def containsSubL (pat : List Char) : List Char → Bool
  | [] => pat.isEmpty
  | c :: rest => List.isPrefixOf pat (c :: rest) || containsSubL pat rest

/-- The text after the first occurrence of `pat` (`s.split(pat)[1]` when the
separator occurs; `none` when it does not). -/
def afterFirstL (pat : List Char) : List Char → Option (List Char)
  | [] => if pat.isEmpty then some [] else none
  | c :: rest =>
    if List.isPrefixOf pat (c :: rest) then some ((c :: rest).drop pat.length)
    else afterFirstL pat rest

/-- The text before the first occurrence of `pat` (`s.split(pat)[0]`). -/
def beforeFirstL (pat : List Char) : List Char → List Char
  | [] => []
  | c :: rest =>
    if List.isPrefixOf pat (c :: rest) then [] else c :: beforeFirstL pat rest

/-- Python `s.split(chr(10))`: always at least one piece. -/
def splitLinesL : List Char → List (List Char)
  | [] => [[]]
  | c :: rest =>
    if c = '\n' then [] :: splitLinesL rest
    else
      match splitLinesL rest with
      | l :: ls => (c :: l) :: ls
      | [] => [[c]]

/-- Inverse of `splitLinesL`: join with newlines (`chr(10).join`). -/
def joinLinesL (ls : List (List Char)) : List Char := List.intercalate ['\n'] ls

/-- Python set insertion (`set.add`), modelled on an insertion-ordered
duplicate-free list. -/
def setAdd (l : List String) (x : String) : List String :=
  if x ∈ l then l else l ++ [x]

/-! ## The Python syntax tree (`ast` node kinds used by the analyzed code)

A closed term model of the Python `ast` nodes that the extractor inspects
(`src/py_parser.py`, `core/docstring_engine/generator.py`). Node kinds the
analyzers do not distinguish are represented by their children only where the
analyzers only recurse through them; `listComp`/`comprehension` stand for the
comprehension-style nodes, which the complexity counters do NOT include. -/

inductive Node where
  | functionDef (name : String) (args : List String) (body : List Node)
  | asyncFunctionDef (name : String) (args : List String) (body : List Node)
  | classDef (name : String) (body : List Node)
  | module (body : List Node)
  | returnStmt (value : Option Node)
  | raiseStmt (exc : Option Node)
  | ifStmt (test : Node) (body orelse : List Node)
  | forStmt (target iter : Node) (body orelse : List Node)
  | asyncForStmt (target iter : Node) (body orelse : List Node)
  | whileStmt (test : Node) (body orelse : List Node)
  | tryStmt (body handlers orelse finalbody : List Node)
  | exceptHandler (body : List Node)
  | withStmt (body : List Node)
  | asyncWithStmt (body : List Node)
  | assign (targets : List Node) (value : Node)
  | exprStmt (value : Node)
  | passStmt
  | boolOp (values : List Node)
  | ifExp (test body orelse : Node)
  | listComp (elt : Node) (generators : List Node)
  | comprehension (target iter : Node) (ifs : List Node)
  | yieldExpr (value : Option Node)
  | yieldFromExpr (value : Node)
  | callExpr (func : Node) (args : List Node)
  | nameExpr (id : String)
  | constNone
  | constOther (text : String)

/-! Structural equality on nodes (written out because the nested `List Node`
fields defeat the derive handler; used for the walk loop's `child != node`
identity check, where structural equality of a strict subterm with the walk
root coincides with identity). -/

mutual

def nodeBeq : Node → Node → Bool
  | .functionDef n1 a1 b1, .functionDef n2 a2 b2 => n1 == n2 && (a1 == a2 && nodeBeqList b1 b2)
  | .asyncFunctionDef n1 a1 b1, .asyncFunctionDef n2 a2 b2 => n1 == n2 && (a1 == a2 && nodeBeqList b1 b2)
  | .classDef n1 b1, .classDef n2 b2 => n1 == n2 && nodeBeqList b1 b2
  | .module b1, .module b2 => nodeBeqList b1 b2
  | .returnStmt v1, .returnStmt v2 => nodeBeqOpt v1 v2
  | .raiseStmt e1, .raiseStmt e2 => nodeBeqOpt e1 e2
  | .ifStmt t1 b1 o1, .ifStmt t2 b2 o2 => nodeBeq t1 t2 && (nodeBeqList b1 b2 && nodeBeqList o1 o2)
  | .forStmt t1 i1 b1 o1, .forStmt t2 i2 b2 o2 =>
    nodeBeq t1 t2 && (nodeBeq i1 i2 && (nodeBeqList b1 b2 && nodeBeqList o1 o2))
  | .asyncForStmt t1 i1 b1 o1, .asyncForStmt t2 i2 b2 o2 =>
    nodeBeq t1 t2 && (nodeBeq i1 i2 && (nodeBeqList b1 b2 && nodeBeqList o1 o2))
  | .whileStmt t1 b1 o1, .whileStmt t2 b2 o2 => nodeBeq t1 t2 && (nodeBeqList b1 b2 && nodeBeqList o1 o2)
  | .tryStmt b1 h1 o1 f1, .tryStmt b2 h2 o2 f2 =>
    nodeBeqList b1 b2 && (nodeBeqList h1 h2 && (nodeBeqList o1 o2 && nodeBeqList f1 f2))
  | .exceptHandler b1, .exceptHandler b2 => nodeBeqList b1 b2
  | .withStmt b1, .withStmt b2 => nodeBeqList b1 b2
  | .asyncWithStmt b1, .asyncWithStmt b2 => nodeBeqList b1 b2
  | .assign t1 v1, .assign t2 v2 => nodeBeqList t1 t2 && nodeBeq v1 v2
  | .exprStmt v1, .exprStmt v2 => nodeBeq v1 v2
  | .passStmt, .passStmt => true
  | .boolOp v1, .boolOp v2 => nodeBeqList v1 v2
  | .ifExp t1 b1 o1, .ifExp t2 b2 o2 => nodeBeq t1 t2 && (nodeBeq b1 b2 && nodeBeq o1 o2)
  | .listComp e1 g1, .listComp e2 g2 => nodeBeq e1 e2 && nodeBeqList g1 g2
  | .comprehension t1 i1 f1, .comprehension t2 i2 f2 =>
    nodeBeq t1 t2 && (nodeBeq i1 i2 && nodeBeqList f1 f2)
  | .yieldExpr v1, .yieldExpr v2 => nodeBeqOpt v1 v2
  | .yieldFromExpr v1, .yieldFromExpr v2 => nodeBeq v1 v2
  | .callExpr f1 a1, .callExpr f2 a2 => nodeBeq f1 f2 && nodeBeqList a1 a2
  | .nameExpr i1, .nameExpr i2 => i1 == i2
  | .constNone, .constNone => true
  | .constOther s1, .constOther s2 => s1 == s2
  | _, _ => false

def nodeBeqList : List Node → List Node → Bool
  | [], [] => true
  | x :: xs, y :: ys => nodeBeq x y && nodeBeqList xs ys
  | _, _ => false

def nodeBeqOpt : Option Node → Option Node → Bool
  | none, none => true
  | some x, some y => nodeBeq x y
  | _, _ => false

end

instance : BEq Node := ⟨nodeBeq⟩

/-! `walk`, `walkList`, `walkOpt`: `ast.walk(node)` - the node and all its
descendants. CPython yields them in breadth-first order; every use in this
codebase is order-insensitive (boolean flags, a set, a count), so a
depth-first enumeration is used. -/

mutual

def walk : Node → List Node
  | .functionDef n a b => .functionDef n a b :: walkList b
  | .asyncFunctionDef n a b => .asyncFunctionDef n a b :: walkList b
  | .classDef n b => .classDef n b :: walkList b
  | .module b => .module b :: walkList b
  | .returnStmt v => .returnStmt v :: walkOpt v
  | .raiseStmt e => .raiseStmt e :: walkOpt e
  | .ifStmt t b o => .ifStmt t b o :: (walk t ++ (walkList b ++ walkList o))
  | .forStmt t i b o => .forStmt t i b o :: (walk t ++ (walk i ++ (walkList b ++ walkList o)))
  | .asyncForStmt t i b o => .asyncForStmt t i b o :: (walk t ++ (walk i ++ (walkList b ++ walkList o)))
  | .whileStmt t b o => .whileStmt t b o :: (walk t ++ (walkList b ++ walkList o))
  | .tryStmt b h o f => .tryStmt b h o f :: (walkList b ++ (walkList h ++ (walkList o ++ walkList f)))
  | .exceptHandler b => .exceptHandler b :: walkList b
  | .withStmt b => .withStmt b :: walkList b
  | .asyncWithStmt b => .asyncWithStmt b :: walkList b
  | .assign t v => .assign t v :: (walkList t ++ walk v)
  | .exprStmt v => .exprStmt v :: walk v
  | .passStmt => [.passStmt]
  | .boolOp vs => .boolOp vs :: walkList vs
  | .ifExp t b o => .ifExp t b o :: (walk t ++ (walk b ++ walk o))
  | .listComp e g => .listComp e g :: (walk e ++ walkList g)
  | .comprehension t i ifs => .comprehension t i ifs :: (walk t ++ (walk i ++ walkList ifs))
  | .yieldExpr v => .yieldExpr v :: walkOpt v
  | .yieldFromExpr v => .yieldFromExpr v :: walk v
  | .callExpr f a => .callExpr f a :: (walk f ++ walkList a)
  | .nameExpr i => [.nameExpr i]
  | .constNone => [.constNone]
  | .constOther s => [.constOther s]

def walkList : List Node → List Node
  | [] => []
  | n :: ns => walk n ++ walkList ns

def walkOpt : Option Node → List Node
  | none => []
  | some n => walk n

end

/-! ## `src/py_parser.py`: `analyze_function_body` and the record extractor -/

/-- The function-definition node kinds (`ast.FunctionDef`, `ast.AsyncFunctionDef`). -/
def isFuncDefNode : Node → Bool
  | .functionDef .. => true
  | .asyncFunctionDef .. => true
  | _ => false

/-- `child.name` of a function-definition node. -/
def funcDefName : Node → String
  | .functionDef n _ _ => n
  | .asyncFunctionDef n _ _ => n
  | _ => ""

/-- Step 4 of `analyze_function_body`'s loop: the node kinds that increment
the complexity counter (`ast.If, For, AsyncFor, While, Try, ExceptHandler,
With, AsyncWith, BoolOp, IfExp`). -/
def isComplexityNode : Node → Bool
  | .ifStmt .. | .forStmt .. | .asyncForStmt .. | .whileStmt .. | .tryStmt ..
  | .exceptHandler .. | .withStmt .. | .asyncWithStmt .. | .boolOp ..
  | .ifExp .. => true
  | _ => false

/-- Step 1: an `ast.Return` whose value is present and is not the constant
`None` (`return None` is ignored). -/
def returnsValueNode : Node → Bool
  | .returnStmt (some .constNone) => false
  | .returnStmt (some _) => true
  | _ => false

/-- Step 2: `ast.Yield` or `ast.YieldFrom`. -/
def isYieldNode : Node → Bool
  | .yieldExpr _ => true
  | .yieldFromExpr _ => true
  | _ => false

/-- Step 3: the exception name of an `ast.Raise` whose `exc` is a `Call` of a
`Name` or a bare `Name`; `none` otherwise. -/
def raisedNameOf : Node → Option String
  | .raiseStmt (some (.callExpr (.nameExpr f) _)) => some f
  | .raiseStmt (some (.nameExpr i)) => some i
  | _ => none

/-- Step 5: the `ast.Name` targets of an `ast.Assign`. -/
def assignTargetNames : Node → List String
  | .assign targets _ =>
    targets.filterMap (fun t => match t with | .nameExpr i => some i | _ => none)
  | _ => []

/-- The metadata dict built by `analyze_function_body`. The `return_type` and
`is_async` entries are read off the node itself (not the loop) and are carried
by `FuncRecord` below. -/
structure BodyMeta where
  returns_value : Bool
  is_generator : Bool
  raised_exceptions : List String
  complexity : Nat
  nested_functions : List String
  local_variables : List String
deriving DecidableEq

/-- One iteration of the `for child in ast.walk(node)` loop of
`analyze_function_body`. A nested function definition (a function-def node
other than the walk root; CPython compares identity, which for a strict
subterm of the root coincides with structural equality) only records its name
and skips the other checks - but its own descendants still occur in the walk
and are processed. The five checks hit disjoint node shapes, so the
sequential `if`s of the source are expressed as parallel field updates. -/
def bodyStep (root : Node) (m : BodyMeta) (child : Node) : BodyMeta :=
  if isFuncDefNode child && !(child == root) then
    { m with nested_functions := m.nested_functions ++ [funcDefName child] }
  else
    { returns_value := m.returns_value || returnsValueNode child
      is_generator := m.is_generator || isYieldNode child
      raised_exceptions :=
        match raisedNameOf child with
        | some e => setAdd m.raised_exceptions e
        | none => m.raised_exceptions
      complexity := m.complexity + (if isComplexityNode child then 1 else 0)
      nested_functions := m.nested_functions
      local_variables := (assignTargetNames child).foldl setAdd m.local_variables }

/-- `analyze_function_body` (src/py_parser.py): fold the per-child checks over
`ast.walk(node)`, starting from complexity 1 and everything else empty. -/
def analyze_function_body (node : Node) : BodyMeta :=
  (walk node).foldl (bodyStep node) ⟨false, false, [], 1, [], []⟩

/-- The slice of the per-function dict built by `visit_nodes` in
`parse_python_file_enhanced` that the verified claims are about. `args` keeps
the declared parameter names with the implicit `self`/`cls` receiver dropped. -/
structure FuncRecord where
  name : String
  parent : Option String
  args : List String
  returns_value : Bool
  is_generator : Bool
  is_async : Bool
  raises : List String
  complexity : Nat
  nested_functions : List String
  nesting_level : Nat
deriving DecidableEq

/-- The record appended by `visit_nodes` for one function-definition node. -/
def mkFuncRecord (parent : Option String) (lvl : Nat) (isAsync : Bool)
    (name : String) (args : List String) (body : List Node) : FuncRecord :=
  let node := if isAsync then Node.asyncFunctionDef name args body
              else Node.functionDef name args body
  let meta := analyze_function_body node
  { name := name
    parent := parent
    args := args.filter (fun a => a != "self" && a != "cls")
    returns_value := meta.returns_value
    is_generator := meta.is_generator
    is_async := isAsync
    raises := meta.raised_exceptions
    complexity := meta.complexity
    nested_functions := meta.nested_functions
    nesting_level := lvl }

/-! `visitNode`/`visitBody`: the recursive `visit_nodes` walker of
`parse_python_file_enhanced`. A function node emits its record and recurses
into its body items at `nesting_level + 1`; a class recurses into its body
with itself as `parent_class` at level 0; a module recurses into its body;
every other statement kind is not entered (faithful to the source: a function
defined inside a bare `if` block is not collected). -/

mutual

def visitNode (parent : Option String) (lvl : Nat) : Node → List FuncRecord
  | .functionDef name args body =>
    mkFuncRecord parent lvl false name args body :: visitBody parent (lvl + 1) body
  | .asyncFunctionDef name args body =>
    mkFuncRecord parent lvl true name args body :: visitBody parent (lvl + 1) body
  | .classDef name body => visitBody (some name) 0 body
  | .module body => visitBody none 0 body
  | _ => []

def visitBody (parent : Option String) (lvl : Nat) : List Node → List FuncRecord
  | [] => []
  | n :: ns => visitNode parent lvl n ++ visitBody parent lvl ns

end

/-- The function records extracted from a parsed module
(`visit_nodes(tree)` in `parse_python_file_enhanced`). -/
def extract_file_records (tree : Node) : List FuncRecord := visitNode none 0 tree

/-! ## `core/docstring_engine/generator.py`: `analyze_code_metadata` -/

/-- The metadata dict of `analyze_code_metadata`. -/
structure CodeMetadata where
  has_return : Bool
  has_yield : Bool
  raised_exceptions : List String
  params : List String
deriving DecidableEq

/-- `[a.arg for a in node.args.args if a.arg != 'self']`. -/
def nonSelfParams (args : List String) : List String := args.filter (· != "self")

/-- Branch 5 of `analyze_code_metadata`: the parameters of the first direct
child of a class body that is a (non-async) `FunctionDef` named `__init__`. -/
def findInitParams (body : List Node) : Option (List String) :=
  body.findSome? (fun sub =>
    match sub with
    | .functionDef n args _ => if n == "__init__" then some (nonSelfParams args) else none
    | _ => none)

/-- One iteration of the `for node in ast.walk(tree)` loop of
`analyze_code_metadata` (an `if`/`elif` chain; the shapes are disjoint). -/
def codeMetaStep (m : CodeMetadata) (node : Node) : CodeMetadata :=
  match node with
  | .returnStmt (some v) =>
    if v == Node.constNone then m else { m with has_return := true }
  | .yieldExpr _ => { m with has_yield := true }
  | .yieldFromExpr _ => { m with has_yield := true }
  | .raiseStmt (some (.callExpr (.nameExpr f) _)) =>
    { m with raised_exceptions := setAdd m.raised_exceptions f }
  | .raiseStmt (some (.nameExpr i)) =>
    { m with raised_exceptions := setAdd m.raised_exceptions i }
  | .functionDef _ args _ =>
    if m.params.isEmpty then { m with params := nonSelfParams args } else m
  | .asyncFunctionDef _ args _ =>
    if m.params.isEmpty then { m with params := nonSelfParams args } else m
  | .classDef _ body =>
    if m.params.isEmpty then
      match findInitParams body with
      | some ps => { m with params := ps }
      | none => m
    else m
  | _ => m

/-- `analyze_code_metadata` (core/docstring_engine/generator.py). The
`ast.parse` of the source snippet is outside the string model, so the scan is
a function of the parse outcome: `some tree` when the snippet parses, `none`
when parsing raises - in which case the `except` branch sets only
`has_return` and `has_yield` on the initial metadata (`raised_exceptions`
stays empty). -/
def analyze_code_metadata (parsed : Option Node) : CodeMetadata :=
  match parsed with
  | some tree => (walk tree).foldl codeMetaStep ⟨false, false, [], []⟩
  | none => { has_return := true, has_yield := true, raised_exceptions := [], params := [] }

/-! ## Regular-expression scanning helpers

Operational translations of the concrete patterns used by
`_extract_documented_params`, `_validate_exceptions` and `clean_docstring`.
Quantifier behavior (leftmost match, lazy `.+?`, greedy `\s*` with
backtracking into a following literal) is spelled out per pattern. -/

/-- Lazy `.+?` before a stop group: the content up to the earliest position
(at least one character in) where `stop` accepts the remainder. Every stop
used accepts the empty remainder (its `$` alternative), so the whole text is
returned when no earlier stop exists. -/
def lazyContentAux (stop : List Char → Bool) : List Char → List Char
  | [] => []
  | c :: rest => if stop rest then [c] else c :: lazyContentAux stop rest

/-- Stop group `(\n\s*[A-Z]|$)` (DOTALL search over the whole docstring, so
`$` holds at the end or before a trailing final newline): a newline whose
next non-whitespace character is an uppercase letter, or the end. -/
def stopNlUpper : List Char → Bool
  | [] => true
  | ['\n'] => true
  | '\n' :: rest =>
    (match rest.dropWhile isPySpace with
     | d :: _ => d.isUpper
     | [] => false)
  | _ => false

/-- Stop group `(\n\s*\n|\n\s*[A-Z]|$)` of the NumPy Parameters capture:
additionally stops at a blank line (a newline whose following whitespace run
contains another newline). -/
def stopNumpyEnd : List Char → Bool
  | [] => true
  | ['\n'] => true
  | '\n' :: rest =>
    (rest.takeWhile isPySpace).contains '\n' ||
      (match rest.dropWhile isPySpace with
       | d :: _ => d.isUpper
       | [] => false)
  | _ => false

/-- Greedy `\s*` followed by a literal newline (`\s*\n`): consumes the
leading whitespace run up to and including its last newline; fails when the
run contains no newline. Returns the remainder. -/
def consumeWsNl (s : List Char) : Option (List Char) :=
  let run := s.takeWhile isPySpace
  match run.reverse.findIdx? (· = '\n') with
  | some j => some (s.drop (run.length - j))
  | none => none

/-- `re.search(r"Args:\s*(.+?)(\n\s*[A-Z]|$)", doc, re.DOTALL)`: the captured
group after the first `Args:`. When everything after `Args:` is whitespace,
the greedy `\s*` backtracks one character so the lazy `.+?` can match it. -/
def googleArgsContent (doc : List Char) : Option (List Char) :=
  match afterFirstL "Args:".data doc with
  | none => none
  | some rest =>
    match rest.dropWhile isPySpace with
    | [] => if rest.isEmpty then none else some [rest.getLastD ' ']
    | body => some (lazyContentAux stopNlUpper body)

/-- One line of the Args section against
`^\s*(\w+)(?:\s*\(.*?\))?\s*:` (MULTILINE findall, one anchor per line; the
whitespace runs live inside the line, which is newline-free): optional
leading whitespace, a word, an optional parenthesized type, a colon. -/
def googleLineParam (line : List Char) : Option String :=
  let t := line.dropWhile isPySpace
  let w := t.takeWhile isWordChar
  if w.isEmpty then none
  else
    match (t.drop w.length).dropWhile isPySpace with
    | '(' :: inner =>
      (match afterFirstL [')'] inner with
       | some r2 =>
         (match r2.dropWhile isPySpace with
          | ':' :: _ => some ⟨w⟩
          | _ => none)
       | none => none)
    | ':' :: _ => some ⟨w⟩
    | _ => none

/-- Strategy 1 (Google style) of `_extract_documented_params` /
`_extract_docstring_params`. -/
def googleParams (doc : List Char) : List String :=
  match googleArgsContent doc with
  | none => []
  | some content => (splitLinesL content).filterMap googleLineParam

/-- `re.search(r"Parameters\n\s*-+\s*\n(.+?)(\n\s*\n|\n\s*[A-Z]|$)", doc,
re.DOTALL)`: the captured group after the first `Parameters` heading and its
dashed underline. -/
def numpyContent (doc : List Char) : Option (List Char) :=
  match afterFirstL "Parameters\n".data doc with
  | none => none
  | some rest =>
    let t := rest.dropWhile isPySpace
    let dashes := t.takeWhile (· = '-')
    if dashes.isEmpty then none
    else
      match consumeWsNl (t.drop dashes.length) with
      | none => none
      | some body =>
        if body.isEmpty then none else some (lazyContentAux stopNumpyEnd body)

/-- One line against the strict NumPy entry pattern `^\s*(\w+)\s*:`. -/
def numpyStrictLineParam (line : List Char) : Option String :=
  let t := line.dropWhile isPySpace
  let w := t.takeWhile isWordChar
  if w.isEmpty then none
  else
    match (t.drop w.length).dropWhile isPySpace with
    | ':' :: _ => some ⟨w⟩
    | _ => none

/-- One line against the loose NumPy entry pattern
`^\s*(\w+)(?:\s*:\s*.*)?$`: a leading word followed by the line end or by a
colon (after optional whitespace) and anything. The source's follow-up filter
`cand and not cand.startswith(chr(32))` is vacuous for a `\w+` capture. -/
def numpyLooseLineParam (line : List Char) : Option String :=
  let t := line.dropWhile isPySpace
  let w := t.takeWhile isWordChar
  if w.isEmpty then none
  else
    let r := t.drop w.length
    if r.isEmpty then some ⟨w⟩
    else
      match r.dropWhile isPySpace with
      | ':' :: _ => some ⟨w⟩
      | _ => none

/-- Strategy 2 (NumPy style): strict colon-delimited entries, falling back to
the loose per-line match when none are found. -/
def numpyParams (doc : List Char) : List String :=
  match numpyContent doc with
  | none => []
  | some content =>
    let lines := splitLinesL content
    let strict := lines.filterMap numpyStrictLineParam
    if strict.isEmpty then lines.filterMap numpyLooseLineParam else strict

/-- One attempted match of `KEY\s+(\w+):` at the head of `s` (the shape of
`:param\s+(\w+):` and `:raises\s+(\w+):`): the captured name and the number
of characters consumed. -/
def directiveHere (key : List Char) (s : List Char) : Option (String × Nat) :=
  if List.isPrefixOf key s then
    let r := s.drop key.length
    let ws := r.takeWhile isPySpace
    if ws.isEmpty then none
    else
      let r1 := r.drop ws.length
      let w := r1.takeWhile isWordChar
      if w.isEmpty then none
      else
        match r1.drop w.length with
        | ':' :: _ => some (⟨w⟩, key.length + ws.length + w.length + 1)
        | _ => none
  else none

/-- `re.findall` of a directive pattern over the whole text, non-overlapping,
left to right. The fuel argument (initialized to the text length by
`directiveScan`, and sufficient since every step consumes at least one
character) only makes the recursion structural. -/
def directiveScanF (key : List Char) : Nat → List Char → List String
  | _, [] => []
  | 0, _ :: _ => []
  | fuel + 1, c :: rest =>
    match directiveHere key (c :: rest) with
    | some (w, n) => w :: directiveScanF key fuel (rest.drop (n - 1))
    | none => directiveScanF key fuel rest

def directiveScan (key : List Char) (s : List Char) : List String :=
  directiveScanF key s.length s

/-- One attempted match of `:param\s+(?:\w+\s+)?(\w+):` (the validator's
ReST pattern, with an optional type word): the greedy optional group is tried
first and given back when the rest of the match fails. Backtracking inside
the whitespace and word runs cannot help (a shorter run leaves a character of
the same class where a different class is required), so maximal runs are
taken. -/
def restParamHere (s : List Char) : Option (String × Nat) :=
  if List.isPrefixOf ":param".data s then
    let r := s.drop 6
    let ws := r.takeWhile isPySpace
    if ws.isEmpty then none
    else
      let r1 := r.drop ws.length
      let w1 := r1.takeWhile isWordChar
      if w1.isEmpty then none
      else
        let afterW1 := r1.drop w1.length
        let ws2 := afterW1.takeWhile isPySpace
        let withType : Option (String × Nat) :=
          if ws2.isEmpty then none
          else
            let r2 := afterW1.drop ws2.length
            let w2 := r2.takeWhile isWordChar
            if w2.isEmpty then none
            else
              match r2.drop w2.length with
              | ':' :: _ =>
                some (⟨w2⟩, 6 + ws.length + w1.length + ws2.length + w2.length + 1)
              | _ => none
        match withType with
        | some res => some res
        | none =>
          match afterW1 with
          | ':' :: _ => some (⟨w1⟩, 6 + ws.length + w1.length + 1)
          | _ => none
  else none

/-- `re.findall(r":param\s+(?:\w+\s+)?(\w+):", doc)` (validator variant),
fuel-structural as in `directiveScanF`. -/
def restParamScanValF : Nat → List Char → List String
  | _, [] => []
  | 0, _ :: _ => []
  | fuel + 1, c :: rest =>
    match restParamHere (c :: rest) with
    | some (w, n) => w :: restParamScanValF fuel (rest.drop (n - 1))
    | none => restParamScanValF fuel rest

def restParamScanVal (s : List Char) : List String := restParamScanValF s.length s

/-! ## `core/docstring_engine/ai_validator.py`: `AIOutputValidator` -/

/-- `ValidationIssue` (severity is `"error"`, `"warning"` or `"info"`). -/
structure ValidationIssue where
  severity : String
  code : String
  message : String
  suggestion : Option String := none
deriving DecidableEq

/-- `ValidationResult`. The `corrected_docstring` field (filled by
`auto_correct`) is outside every verified claim and is not modelled. -/
structure ValidationResult where
  is_valid : Bool
  issues : List ValidationIssue := []
  confidence_score : ℚ := 1
deriving DecidableEq

/-- One entry of `func_meta["args"]`. -/
structure Arg where
  name : String
deriving DecidableEq

/-- The slice of the parser's function dict that `validate_docstring` reads. -/
structure FuncMeta where
  args : List Arg := []
  returns_value : Bool := false
  is_generator : Bool := false
  raises : List String := []
deriving DecidableEq

/-- `AIOutputValidator.FALSE_POSITIVE_EXCEPTIONS`. -/
def falsePositiveExceptions : List String :=
  ["TypeError", "AttributeError", "KeyError", "IndexError", "RuntimeError", "Exception"]

/-- Fold `set.update(items)` onto an insertion-ordered duplicate-free list. -/
def addAll (s : List String) (xs : List String) : List String := xs.foldl setAdd s

/-- `_extract_documented_params(docstring, style)`: all three style
strategies run unconditionally and their results are unioned; the `style`
argument is received but never read. -/
def extract_documented_params (docstring : String) (style : String) : List String :=
  let doc := stripL docstring.data
  addAll (addAll (addAll [] (googleParams doc)) (numpyParams doc)) (restParamScanVal doc)

/-- `name.lstrip(chr(42))`: remove leading stars of a varargs name. -/
def lstripStars (s : String) : String := ⟨s.data.dropWhile (· = '*')⟩

/-- The expected-parameter set of `_validate_parameters`: declared names with
leading stars removed, excluding empty names and the `self`/`cls` receivers
(a Python set, modelled as an insertion-ordered duplicate-free list). -/
def expectedParams (meta : FuncMeta) : List String :=
  meta.args.foldl
    (fun s a =>
      let n := lstripStars a.name
      if n != "" && n != "self" && n != "cls" then setAdd s n else s) []

/-- The `MISSING_PARAM` warning for one missing parameter name. -/
def missingParamIssue (p : String) : ValidationIssue :=
  { severity := "warning", code := "MISSING_PARAM"
    message := "Parameter '" ++ p ++ "' is not documented"
    suggestion := some ("Add documentation for parameter '" ++ p ++ "'") }

/-- The `EXTRA_PARAM` error for one hallucinated parameter name. -/
def extraParamIssue (p : String) : ValidationIssue :=
  { severity := "error", code := "EXTRA_PARAM"
    message := "Parameter '" ++ p ++ "' does not exist in function signature"
    suggestion := some ("Remove documentation for non-existent parameter '" ++ p ++ "'") }

/-- `_validate_parameters`: a warning per declared-but-undocumented name and
an error per documented-but-undeclared name. -/
def validate_parameters (docstring : String) (meta : FuncMeta) (style : String) :
    List ValidationIssue :=
  let expected := expectedParams meta
  let documented := extract_documented_params docstring style
  let missing := expected.filter (· ∉ documented)
  let extra := documented.filter (· ∉ expected)
  missing.map missingParamIssue ++ extra.map extraParamIssue

/-- `_validate_returns` (the `style` argument is unused in the source). -/
def validate_returns (docstring : String) (meta : FuncMeta) (style : String) :
    List ValidationIssue :=
  let d := docstring.data
  let has_returns_doc := containsSubL "Returns:".data d || containsSubL "Returns\n".data d
    || containsSubL ":returns:".data d || containsSubL ":return:".data d
  let has_yields_doc := containsSubL "Yields:".data d || containsSubL "Yields\n".data d
    || containsSubL ":yields:".data d
  (if meta.returns_value && !has_returns_doc && !meta.is_generator then
    [{ severity := "warning", code := "MISSING_RETURN"
       message := "Function returns a value but return is not documented" }]
   else []) ++
  ((if !meta.returns_value && has_returns_doc && !meta.is_generator then
    [{ severity := "warning", code := "UNNECESSARY_RETURN"
       message := "Function does not return a value but Returns section exists"
       suggestion := some "Remove Returns section" }]
   else []) ++
  (if meta.is_generator && !has_yields_doc then
    [{ severity := "warning", code := "MISSING_YIELDS"
       message := "Generator function should document Yields" }]
   else []))

/-- One attempted match of `^\s{4}(\w+(?:Error|Exception)?)\s*:` at a line
start of the Google Raises section: exactly four whitespace characters, a
word (the greedy `\w+` subsumes the optional Error/Exception tail), optional
whitespace, a colon. Returns the capture and the consumed length. -/
def googleRaiseHere : List Char → Option (String × Nat)
  | a :: b :: c :: d :: rest =>
    if isPySpace a && isPySpace b && isPySpace c && isPySpace d then
      let w := rest.takeWhile isWordChar
      if w.isEmpty then none
      else
        let r := rest.drop w.length
        let ws := r.takeWhile isPySpace
        match r.drop ws.length with
        | ':' :: _ => some (⟨w⟩, 4 + w.length + ws.length + 1)
        | _ => none
    else none
  | _ => none

/-- MULTILINE findall of the Google Raises pattern: anchored at the section
start and after each newline, non-overlapping; fuel-structural as in
`directiveScanF`. -/
def googleRaisesScanAux (atStart : Bool) : Nat → List Char → List String
  | _, [] => []
  | 0, _ :: _ => []
  | fuel + 1, c :: rest =>
    if atStart then
      match googleRaiseHere (c :: rest) with
      | some (w, n) => w :: googleRaisesScanAux false fuel (rest.drop (n - 1))
      | none => googleRaisesScanAux (c = '\n') fuel rest
    else googleRaisesScanAux (c = '\n') fuel rest

/-- `re.findall(pattern, raises_section, re.MULTILINE)` for Google style. -/
def googleRaisesScan (section_ : List Char) : List String :=
  googleRaisesScanAux true section_.length section_

/-- One line against the NumPy raises pattern `^(\w+(?:Error|Exception)?)\s*$`:
the line is a word (no leading whitespace) followed only by whitespace. -/
def numpyRaiseLine (line : List Char) : Option String :=
  let w := line.takeWhile isWordChar
  if w.isEmpty then none
  else if (line.drop w.length).all isPySpace then some ⟨w⟩ else none

/-- `_validate_exceptions`: style-dependent extraction of documented
exception names, then a warning per name neither actually raised nor on the
false-positive allow-list. -/
def validate_exceptions (docstring : String) (meta : FuncMeta) (style : String) :
    List ValidationIssue :=
  let d := docstring.data
  let documented : List String :=
    if style == "google" && containsSubL "Raises:".data d then
      addAll [] (googleRaisesScan (beforeFirstL "\n\n".data ((afterFirstL "Raises:".data d).getD [])))
    else if style == "numpy" && containsSubL "Raises\n".data d then
      addAll [] ((splitLinesL (beforeFirstL "\n\n".data ((afterFirstL "Raises\n".data d).getD []))).filterMap numpyRaiseLine)
    else if style == "rest" then
      addAll [] (directiveScan ":raises".data d)
    else []
  documented.filterMap (fun exc =>
    if exc ∈ meta.raises then none
    else if exc ∈ falsePositiveExceptions then none
    else some
      { severity := "warning", code := "EXTRA_EXCEPTION"
        message := "Exception '" ++ exc ++ "' is documented but not explicitly raised"
        suggestion := some ("Verify that '" ++ exc ++ "' is actually raised") })

/-- `_validate_pep257`: the three Info-severity summary-line checks. -/
def validate_pep257 (docstring : String) : List ValidationIssue :=
  let lines := splitLinesL docstring.data
  let first_line := stripL (lines.headD [])
  (if first_line ≠ [] ∧ first_line.getLastD ' ' ≠ '.' ∧ first_line.getLastD ' ' ≠ '!'
      ∧ first_line.getLastD ' ' ≠ '?' then
    [{ severity := "info", code := "D400"
       message := "First line should end with a period"
       suggestion := some "Add a period at the end of the first line" }]
   else []) ++
  ((if first_line ≠ [] ∧ (first_line.headD ' ').isLower then
    [{ severity := "info", code := "D403"
       message := "First word should be capitalized"
       suggestion := some ("Capitalize '" ++ ⟨first_line.takeWhile (fun c => !isPySpace c)⟩ ++ "'") }]
   else []) ++
  (if List.isPrefixOf "this ".data (lowerL first_line) then
    [{ severity := "info", code := "D404"
       message := "First word should not be 'This'"
       suggestion := some "Rephrase to start with an imperative verb" }]
   else []))

/-- `round(x, 2)` on the confidence value. Python rounds half to even; every
value this code rounds is an integer multiple of 1/20, whose hundredfold is
an integer, so no tie-breaking is ever exercised. -/
def pyRound2 (q : ℚ) : ℚ := round (q * 100) / 100

/-- `AIOutputValidator.validate_docstring`. An empty candidate returns the
early invalid result, whose `confidence_score` keeps the dataclass default 1. -/
def validate_docstring (docstring : String) (func_meta : FuncMeta) (style : String) :
    ValidationResult :=
  if docstring = "" then
    { is_valid := false
      issues := [{ severity := "error", code := "EMPTY_DOCSTRING", message := "Docstring is empty" }] }
  else
    let issues := validate_parameters docstring func_meta style ++
      (validate_returns docstring func_meta style ++
       (validate_exceptions docstring func_meta style ++ validate_pep257 docstring))
    let error_count := issues.countP (fun i => i.severity == "error")
    let warning_count := issues.countP (fun i => i.severity == "warning")
    let confidence : ℚ := max 0 (1 - error_count * (0.2 : ℚ) - warning_count * (0.05 : ℚ))
    { is_valid := (issues.filter (fun i => i.severity == "error")).length == 0
      issues := issues
      confidence_score := pyRound2 confidence }

/-! ## `core/metrics_engine.py`: the documentation-correctness score -/

/-- Python `set(xs)` modelled as an insertion-ordered duplicate-free list. -/
def pyDedup (xs : List String) : List String := addAll [] xs

/-- `MetricsEngine._extract_docstring_params`: same three strategies as the
validator, with the simpler ReST pattern `:param\s+(\w+):` (no type word),
and an early empty set for an empty docstring. -/
def metrics_extract_docstring_params (docstring : String) (style : String) : List String :=
  if docstring = "" then []
  else
    let doc := stripL docstring.data
    addAll (addAll (addAll [] (googleParams doc)) (numpyParams doc))
      (directiveScan ":param".data doc)

/-- The documentation-correctness computation of
`MetricsEngine.compute_function_metrics` (the value exposed as
`doc_coverage`), as a function of the record fields it reads: the docstring
(empty for an undocumented function, so `bool(docstring)` is false), the
declared parameter names `code_params`, and the detected docstring style. -/
def compute_doc_correctness (docstring : String) (code_params : List String)
    (doc_style : String) : ℚ :=
  if docstring = "" then 0
  else
    let doc_params := metrics_extract_docstring_params docstring doc_style
    if code_params = [] ∧ doc_params = [] then 100
    else if code_params = [] ∧ doc_params ≠ [] then 50
    else if code_params ≠ [] ∧ doc_params = [] then 60
    else
      let code_set := pyDedup code_params
      let common := code_set.filter (· ∈ doc_params)
      let extra := doc_params.filter (· ∉ code_set)
      let match_score : ℚ := ((common.length : ℚ) / code_set.length) * 100
      let stale_penalty : ℚ := (extra.length : ℚ) * 10
      max 0 (min 100 (match_score - stale_penalty))

/-! ## `core/docstring_engine/generator.py`: `clean_docstring` -/

/-- Remove the last `n` characters (`s[:-n]`). -/
def dropEndL (n : Nat) (l : List Char) : List Char := l.take (l.length - n)

/-- The conversational openers of the step-1 filler pattern, in alternation
order (pairwise non-prefix, so at most one can apply). -/
def fillerOpeners : List (List Char) :=
  ["Here is".data, "Sure".data, "I have generated".data, "Generated by AI".data]

/-- Step 1: `re.sub(r"^(Here is|Sure|I have generated|Generated by AI)` +
`.+?(\n|$)", "", docstring, flags=re.IGNORECASE)`. Anchored at the start and
not MULTILINE, so at most one removal: the opener, at least one non-newline
character, then everything up to and including the first newline (or to the
end when there is none). When the opener is immediately followed by a newline
the `.+?` cannot match and nothing is removed. -/
def stripFiller (s : List Char) : List Char :=
  match fillerOpeners.findSome? (fun pre =>
      if List.isPrefixOf (lowerL pre) (lowerL s) then some pre.length else none) with
  | none => s
  | some k =>
    match s.drop k with
    | [] => s
    | c :: rest =>
      if c = '\n' then s
      else
        match afterFirstL ['\n'] rest with
        | some tail => tail
        | none => []

/-- Step 2: strip one layer of markdown code fences -
`re.sub(r"^```[a-z]*\s*", "", s)` then `re.sub(r"\s*```$", "", s)`, the
second matching a trailing fence at the end of the string or just before a
final newline, together with the whitespace run preceding it. -/
def stripCodeFence (s : List Char) : List Char :=
  if List.isPrefixOf "```".data s then
    let s1 := ((s.drop 3).dropWhile Char.isLower).dropWhile isPySpace
    if List.isSuffixOf "```".data s1 then rstripL (dropEndL 3 s1)
    else if s1.getLastD ' ' = '\n' ∧ List.isSuffixOf "```".data (dropEndL 1 s1) then
      rstripL (dropEndL 4 s1) ++ ['\n']
    else s1
  else s

/-- Step 4: strip one layer of surrounding triple-quote markers. -/
def stripTripleQuotes (s : List Char) : List Char :=
  if List.isPrefixOf "\"\"\"".data s ∧ List.isSuffixOf "\"\"\"".data s ∧ 6 ≤ s.length then
    dropEndL 3 (s.drop 3)
  else if List.isPrefixOf "'''".data s ∧ List.isSuffixOf "'''".data s ∧ 6 ≤ s.length then
    dropEndL 3 (s.drop 3)
  else s

/-- Lazy `.+?` before a stop group with consumption: the content length (at
least 1) and the stop's consumed length, at the earliest stop. `none` when
the text is empty (the stops used accept the empty remainder, so a non-empty
text always has a stop). -/
def lazyLen (stop : List Char → Option Nat) : List Char → Option (Nat × Nat)
  | [] => none
  | _ :: rest =>
    match stop rest with
    | some n => some (1, n)
    | none =>
      match lazyLen stop rest with
      | some (k, n) => some (k + 1, n)
      | none => none

/-- Stop group `(\n\n|$)` of the DOTALL section patterns: a blank-line
separator (consumed), the end of the string, or the position before a final
trailing newline. -/
def stopBlank : List Char → Option Nat
  | [] => some 0
  | ['\n'] => some 0
  | '\n' :: '\n' :: _ => some 2
  | _ => none

/-- Stop group `(\n|$)` of the single-line ReST field patterns (whose `.+?`
is newline-free, enforced by stopping at every newline). -/
def stopNlOnly : List Char → Option Nat
  | [] => some 0
  | '\n' :: _ => some 1
  | _ => none

/-- `\s*\n.+?STOP`: greedy whitespace up to and including a newline of the
leading run (backtracking to an earlier newline when the run swallows the
whole text, so that the lazy `.+?` keeps at least one character), then the
lazy content and stop. Returns the total consumed length. -/
def wsNlLazy (stop : List Char → Option Nat) (u : List Char) : Option Nat :=
  let run := u.takeWhile isPySpace
  let searchIn := if run.length = u.length then run.take (u.length - 1) else run
  match searchIn.reverse.findIdx? (· = '\n') with
  | none => none
  | some j =>
    let c2 := searchIn.length - j
    match lazyLen stop (u.drop c2) with
    | some (k, n) => some (c2 + k + n)
    | none => none

/-- A match of the Google-shaped section pattern `\n\s*HDR\s*\n.+?(\n\n|$)`
(DOTALL) at the head of `s`: the consumed length. -/
def sectionMatchA (hdr : List Char) : List Char → Option Nat
  | '\n' :: rest =>
    let wsLen := (rest.takeWhile isPySpace).length
    let t := rest.drop wsLen
    if List.isPrefixOf hdr t then
      match wsNlLazy stopBlank (t.drop hdr.length) with
      | some m => some (1 + wsLen + hdr.length + m)
      | none => none
    else none
  | _ => none

/-- A match of the NumPy-shaped section pattern
`\n\s*HDR\n\s*-+\s*\n.+?(\n\n|$)` (DOTALL) at the head of `s`. -/
def sectionMatchB (hdr : List Char) : List Char → Option Nat
  | '\n' :: rest =>
    let wsLen := (rest.takeWhile isPySpace).length
    let t := rest.drop wsLen
    if List.isPrefixOf (hdr ++ ['\n']) t then
      let u := t.drop (hdr.length + 1)
      let ws2 := u.takeWhile isPySpace
      let v := u.drop ws2.length
      let dashes := v.takeWhile (· = '-')
      if dashes.isEmpty then none
      else
        match wsNlLazy stopBlank (v.drop dashes.length) with
        | some m => some (1 + wsLen + hdr.length + 1 + ws2.length + dashes.length + m)
        | none => none
    else none
  | _ => none

/-- A match of the ReST field pattern `\n\s*KEY.+?(\n|$)` (no DOTALL; `KEY`
is `:return:` or `:raises:`) at the head of `s`. -/
def sectionMatchC (key : List Char) : List Char → Option Nat
  | '\n' :: rest =>
    let wsLen := (rest.takeWhile isPySpace).length
    let t := rest.drop wsLen
    if List.isPrefixOf key t then
      match t.drop key.length with
      | '\n' :: _ => none
      | u =>
        match lazyLen stopNlOnly u with
        | some (k, n) => some (1 + wsLen + key.length + k + n)
        | none => none
    else none
  | _ => none

/-- `re.sub(pattern, repl, s)`: scan left to right, replace each
non-overlapping match (every matcher used consumes at least the leading
newline), continue after the matched span; fuel-structural as in
`directiveScanF`. -/
def gsubF (matchAt : List Char → Option Nat) (repl : List Char) : Nat → List Char → List Char
  | _, [] => []
  | 0, _ :: _ => []
  | fuel + 1, c :: rest =>
    match matchAt (c :: rest) with
    | some n => repl ++ gsubF matchAt repl fuel (rest.drop (n - 1))
    | none => c :: gsubF matchAt repl fuel rest

def gsub (matchAt : List Char → Option Nat) (repl : List Char) (s : List Char) : List Char :=
  gsubF matchAt repl s.length s

/-- The `_IMPERATIVE_FIXES` table: third-person-singular summary openers and
their imperative forms. -/
def imperativeFix : String → Option String
  | "Raises" => some "Raise"
  | "Returns" => some "Return"
  | "Yields" => some "Yield"
  | "Calculates" => some "Calculate"
  | "Computes" => some "Compute"
  | "Creates" => some "Create"
  | "Generates" => some "Generate"
  | "Gets" => some "Get"
  | "Sets" => some "Set"
  | "Checks" => some "Check"
  | "Validates" => some "Validate"
  | "Parses" => some "Parse"
  | "Processes" => some "Process"
  | "Handles" => some "Handle"
  | "Executes" => some "Execute"
  | "Performs" => some "Perform"
  | "Builds" => some "Build"
  | "Initializes" => some "Initialize"
  | "Converts" => some "Convert"
  | "Extracts" => some "Extract"
  | "Loads" => some "Load"
  | "Saves" => some "Save"
  | "Writes" => some "Write"
  | "Reads" => some "Read"
  | "Sends" => some "Send"
  | "Receives" => some "Receive"
  | "Updates" => some "Update"
  | "Deletes" => some "Delete"
  | "Removes" => some "Remove"
  | "Adds" => some "Add"
  | "Inserts" => some "Insert"
  | "Finds" => some "Find"
  | "Searches" => some "Search"
  | "Sorts" => some "Sort"
  | "Filters" => some "Filter"
  | "Maps" => some "Map"
  | "Reduces" => some "Reduce"
  | "Transforms" => some "Transform"
  | "Applies" => some "Apply"
  | "Runs" => some "Run"
  | "Starts" => some "Start"
  | "Stops" => some "Stop"
  | "Opens" => some "Open"
  | "Closes" => some "Close"
  | "Connects" => some "Connect"
  | "Formats" => some "Format"
  | "Prints" => some "Print"
  | "Logs" => some "Log"
  | "Tests" => some "Test"
  | "Verifies" => some "Verify"
  | "Determines" => some "Determine"
  | "Evaluates" => some "Evaluate"
  | "Fetches" => some "Fetch"
  | "Retrieves" => some "Retrieve"
  | "Stores" => some "Store"
  | "Caches" => some "Cache"
  | "Clears" => some "Clear"
  | "Resets" => some "Reset"
  | "Copies" => some "Copy"
  | "Moves" => some "Move"
  | "Merges" => some "Merge"
  | "Splits" => some "Split"
  | "Joins" => some "Join"
  | "Appends" => some "Append"
  | "Wraps" => some "Wrap"
  | "Encodes" => some "Encode"
  | "Decodes" => some "Decode"
  | "Encrypts" => some "Encrypt"
  | "Decrypts" => some "Decrypt"
  | "Serializes" => some "Serialize"
  | "Deserializes" => some "Deserialize"
  | "Normalizes" => some "Normalize"
  | "Sanitizes" => some "Sanitize"
  | "Configures" => some "Configure"
  | "Registers" => some "Register"
  | "Enables" => some "Enable"
  | "Disables" => some "Disable"
  | "Displays" => some "Display"
  | "Renders" => some "Render"
  | "Shows" => some "Show"
  | "Hides" => some "Hide"
  | "Toggles" => some "Toggle"
  | "Switches" => some "Switch"
  | "Provides" => some "Provide"
  | "Defines" => some "Define"
  | "Describes" => some "Describe"
  | "Implements" => some "Implement"
  | "Extends" => some "Extend"
  | "Overrides" => some "Override"
  | _ => none

/-- The PEP 257 enforcement block of `clean_docstring` on the summary line:
strip a leading "This function/module " phrase (the `class`/`method`
alternatives of the inner pattern are unreachable, since the guarding
condition only tests the `function`/`module` prefixes), rewrite a leading
third-person verb to imperative mood, capitalize the first letter, and append
terminal punctuation (to the stripped summary) when missing. -/
def fixSummary (docstring : List Char) : List Char :=
  match splitLinesL docstring with
  | [] => docstring
  | first :: restLines =>
    let low := lowerL first
    let s1 :=
      if List.isPrefixOf "this function".data low || List.isPrefixOf "this module".data low then
        if List.isPrefixOf "this function ".data low then first.drop 14
        else if List.isPrefixOf "this module ".data low then first.drop 12
        else first
      else first
    let firstWord := s1.takeWhile (fun c => !(c == ' '))
    let s2 :=
      match imperativeFix ⟨firstWord⟩ with
      | some imp =>
        if firstWord.length < s1.length then imp.data ++ s1.drop firstWord.length
        else imp.data
      | none => s1
    let s3 :=
      match s2 with
      | c :: cs => if c.isLower then c.toUpper :: cs else s2
      | [] => s2
    let s4 :=
      if s3 ≠ [] ∧ stripL s3 ≠ [] ∧ (stripL s3).getLastD ' ' ∉ (['.', '!', '?', ':'] : List Char) then
        stripL s3 ++ ['.']
      else s3
    joinLinesL (s4 :: restLines)

/-- The forbidden narrative sections of step 5, in loop order. -/
def forbiddenSections : List String := ["Examples", "Example", "Notes", "See Also"]

/-- `clean_docstring` (core/docstring_engine/generator.py). Step 3 re-parses
a candidate that itself looks like a full `def`/`class` definition and
substitutes its inner docstring; that `ast.parse`-based extraction is outside
the string model and is supplied as `extractWrapped` (consulted only when the
text starts with `def ` or `class `; every concrete input evaluated below
leaves it unconsulted, so its choice is immaterial there). `metadata` is the
optional structural-facts dict (`if metadata:` - callers pass either a
populated dict or `None`). -/
def clean_docstring (extractWrapped : List Char → Option (List Char))
    (docstring : List Char) (metadata : Option CodeMetadata) : List Char :=
  if docstring.isEmpty then []
  else
    let d0 := stripL docstring
    let d1 := stripL (stripFiller d0)
    let d2 := stripL (stripCodeFence d1)
    let d3 :=
      if List.isPrefixOf "def ".data d2 || List.isPrefixOf "class ".data d2 then
        match extractWrapped d2 with
        | some inner => inner
        | none => d2
      else d2
    let d4 := stripL (stripTripleQuotes d3)
    if d4.isEmpty then []
    else
      let d5 :=
        match metadata with
        | some m =>
          let r1 :=
            if !m.has_return then
              gsub (sectionMatchC ":return:".data) ['\n']
                (gsub (sectionMatchB "Returns".data) "\n\n".data
                  (gsub (sectionMatchA "Returns:".data) "\n\n".data d4))
            else d4
          let r2 :=
            if !m.has_yield then
              gsub (sectionMatchB "Yields".data) "\n\n".data
                (gsub (sectionMatchA "Yields:".data) "\n\n".data r1)
            else r1
          if m.raised_exceptions.isEmpty then
            gsub (sectionMatchC ":raises:".data) ['\n']
              (gsub (sectionMatchB "Raises".data) "\n\n".data
                (gsub (sectionMatchA "Raises:".data) "\n\n".data r2))
          else r2
        | none => d4
      let d6 := forbiddenSections.foldl
        (fun acc sec =>
          gsub (sectionMatchB sec.data) "\n\n".data
            (gsub (sectionMatchA (sec.data ++ [':'])) "\n\n".data acc)) d5
      stripL (fixSummary d6)

/-! ## Walk infrastructure: transitivity of descendant enumeration -/

/-- A node list closed under taking walks of its members: every descendant of
a member is itself a member. -/
def WClosed (s : List Node) : Prop := ∀ a ∈ s, ∀ x ∈ walk a, x ∈ s

theorem wclosed_nil : WClosed [] := fun a ha => absurd ha (List.not_mem_nil a)

theorem wclosed_append {s t : List Node} (hs : WClosed s) (ht : WClosed t) :
    WClosed (s ++ t) := by
  intro a ha x hx
  rcases List.mem_append.1 ha with h | h
  · exact List.mem_append_left _ (hs a h x hx)
  · exact List.mem_append_right _ (ht a h x hx)

theorem wclosed_node {n : Node} {s : List Node} (hs : WClosed s)
    (hn : walk n = n :: s) : WClosed (walk n) := by
  rw [hn]
  intro a ha x hx
  rcases List.mem_cons.1 ha with rfl | h
  · rw [hn] at hx; exact hx
  · exact List.mem_cons_of_mem _ (hs a h x hx)

/-- Every walk is closed: a descendant of a descendant of `b` is a descendant
of `b`. -/
theorem walk_wclosed : ∀ b : Node, WClosed (walk b) := by
  refine walk.induct
    (fun b => WClosed (walk b))
    (fun o => WClosed (walkOpt o))
    (fun l => WClosed (walkList l))
    ?_ ?_ ?_ ?_ ?_ ?_ ?_ ?_ ?_ ?_ ?_ ?_ ?_ ?_ ?_ ?_ ?_ ?_ ?_ ?_ ?_ ?_ ?_ ?_ ?_ ?_ ?_ ?_ ?_ ?_ ?_
  · exact fun n a b ih => wclosed_node ih rfl
  · exact fun n a b ih => wclosed_node ih rfl
  · exact fun n b ih => wclosed_node ih rfl
  · exact fun b ih => wclosed_node ih rfl
  · exact fun v ih => wclosed_node ih rfl
  · exact fun e ih => wclosed_node ih rfl
  · exact fun t b o iht ihb iho => wclosed_node (wclosed_append iht (wclosed_append ihb iho)) rfl
  · exact fun t i b o iht ihi ihb iho =>
      wclosed_node (wclosed_append iht (wclosed_append ihi (wclosed_append ihb iho))) rfl
  · exact fun t i b o iht ihi ihb iho =>
      wclosed_node (wclosed_append iht (wclosed_append ihi (wclosed_append ihb iho))) rfl
  · exact fun t b o iht ihb iho => wclosed_node (wclosed_append iht (wclosed_append ihb iho)) rfl
  · exact fun b h o f ihb ihh iho ihf =>
      wclosed_node (wclosed_append ihb (wclosed_append ihh (wclosed_append iho ihf))) rfl
  · exact fun b ih => wclosed_node ih rfl
  · exact fun b ih => wclosed_node ih rfl
  · exact fun b ih => wclosed_node ih rfl
  · exact fun t v iht ihv => wclosed_node (wclosed_append iht ihv) rfl
  · exact fun v ih => wclosed_node ih rfl
  · exact wclosed_node wclosed_nil rfl
  · exact fun vs ih => wclosed_node ih rfl
  · exact fun t b o iht ihb iho => wclosed_node (wclosed_append iht (wclosed_append ihb iho)) rfl
  · exact fun e g ihe ihg => wclosed_node (wclosed_append ihe ihg) rfl
  · exact fun t i ifs iht ihi ihifs =>
      wclosed_node (wclosed_append iht (wclosed_append ihi ihifs)) rfl
  · exact fun v ih => wclosed_node ih rfl
  · exact fun v ih => wclosed_node ih rfl
  · exact fun f a ihf iha => wclosed_node (wclosed_append ihf iha) rfl
  · exact fun i => wclosed_node wclosed_nil rfl
  · exact wclosed_node wclosed_nil rfl
  · exact fun s => wclosed_node wclosed_nil rfl
  · exact wclosed_nil
  · exact fun n ns ih1 ih3 => wclosed_append ih1 ih3
  · exact wclosed_nil
  · exact fun n ih => ih

/-- Transitivity of the descendant enumeration. -/
theorem mem_walk_trans {b a x : Node} (hab : a ∈ walk b) (hx : x ∈ walk a) :
    x ∈ walk b := walk_wclosed b a hab x hx

/-- The body of a function-definition node. -/
def funcBody : Node → List Node
  | .functionDef _ _ b => b
  | .asyncFunctionDef _ _ b => b
  | _ => []

/-- A function-definition node's walk is itself followed by its body walk. -/
theorem walk_funcDef {g : Node} (h : isFuncDefNode g = true) :
    walk g = g :: walkList (funcBody g) := by
  cases g <;> simp_all [isFuncDefNode, walk, funcBody]

/-! ## Fold lemmas for `analyze_function_body` -/

theorem isComplexityNode_eq_false_of_funcDef {c : Node} (h : isFuncDefNode c = true) :
    isComplexityNode c = false := by
  cases c <;> simp_all [isFuncDefNode, isComplexityNode]

theorem bodyStep_complexity (root : Node) (m : BodyMeta) (c : Node) :
    (bodyStep root m c).complexity = m.complexity + (if isComplexityNode c then 1 else 0) := by
  unfold bodyStep
  split
  · rename_i h
    rw [isComplexityNode_eq_false_of_funcDef (Bool.and_elim_left h)]
    simp
  · rfl

theorem foldl_bodyStep_complexity (root : Node) (l : List Node) (m : BodyMeta) :
    (l.foldl (bodyStep root) m).complexity = m.complexity + l.countP isComplexityNode := by
  induction l generalizing m with
  | nil => simp
  | cons c cs ih =>
    by_cases h : isComplexityNode c <;>
      simp [List.foldl_cons, ih, bodyStep_complexity, List.countP_cons, h] <;> omega

/-- The complexity computed by `analyze_function_body` is one plus the number
of decision-point nodes (in the source's node-kind list) in the walk. -/
theorem analyze_complexity_eq (n : Node) :
    (analyze_function_body n).complexity = 1 + (walk n).countP isComplexityNode := by
  unfold analyze_function_body
  rw [foldl_bodyStep_complexity]

theorem isYieldNode_eq_false_of_funcDef {c : Node} (h : isFuncDefNode c = true) :
    isYieldNode c = false := by
  cases c <;> simp_all [isFuncDefNode, isYieldNode]

theorem returnsValueNode_eq_false_of_funcDef {c : Node} (h : isFuncDefNode c = true) :
    returnsValueNode c = false := by
  cases c <;> simp_all [isFuncDefNode, returnsValueNode]

theorem raisedNameOf_eq_none_of_funcDef {c : Node} (h : isFuncDefNode c = true) :
    raisedNameOf c = none := by
  cases c <;> simp_all [isFuncDefNode, raisedNameOf]

theorem bodyStep_is_generator (root : Node) (m : BodyMeta) (c : Node) :
    (bodyStep root m c).is_generator = (m.is_generator || isYieldNode c) := by
  unfold bodyStep
  split
  · rename_i h
    rw [isYieldNode_eq_false_of_funcDef (Bool.and_elim_left h)]
    simp
  · rfl

theorem bodyStep_returns_value (root : Node) (m : BodyMeta) (c : Node) :
    (bodyStep root m c).returns_value = (m.returns_value || returnsValueNode c) := by
  unfold bodyStep
  split
  · rename_i h
    rw [returnsValueNode_eq_false_of_funcDef (Bool.and_elim_left h)]
    simp
  · rfl

theorem mem_setAdd {l : List String} {x y : String} :
    x ∈ setAdd l y ↔ x ∈ l ∨ x = y := by
  unfold setAdd
  split
  · rename_i h
    constructor
    · exact Or.inl
    · rintro (hx | rfl)
      · exact hx
      · exact h
  · simp [List.mem_append]

theorem bodyStep_raised_mem (root : Node) (m : BodyMeta) (c : Node) (e : String) :
    e ∈ (bodyStep root m c).raised_exceptions ↔
      e ∈ m.raised_exceptions ∨ raisedNameOf c = some e := by
  unfold bodyStep
  split
  · rename_i h
    rw [raisedNameOf_eq_none_of_funcDef (Bool.and_elim_left h)]
    simp
  · cases hr : raisedNameOf c <;> simp [hr, mem_setAdd, eq_comm]

theorem foldl_bodyStep_is_generator (root : Node) (l : List Node) (m : BodyMeta) :
    (l.foldl (bodyStep root) m).is_generator = (m.is_generator || l.any isYieldNode) := by
  induction l generalizing m with
  | nil => simp
  | cons c cs ih => simp [List.foldl_cons, ih, bodyStep_is_generator, Bool.or_assoc]

theorem foldl_bodyStep_returns_value (root : Node) (l : List Node) (m : BodyMeta) :
    (l.foldl (bodyStep root) m).returns_value = (m.returns_value || l.any returnsValueNode) := by
  induction l generalizing m with
  | nil => simp
  | cons c cs ih => simp [List.foldl_cons, ih, bodyStep_returns_value, Bool.or_assoc]

theorem foldl_bodyStep_raised_mem (root : Node) (l : List Node) (m : BodyMeta) (e : String) :
    e ∈ (l.foldl (bodyStep root) m).raised_exceptions ↔
      e ∈ m.raised_exceptions ∨ ∃ c ∈ l, raisedNameOf c = some e := by
  induction l generalizing m with
  | nil => simp
  | cons c cs ih =>
    rw [List.foldl_cons, ih, bodyStep_raised_mem]
    constructor
    · rintro ((h | h) | ⟨c', hc', h⟩)
      · exact Or.inl h
      · exact Or.inr ⟨c, List.mem_cons_self c cs, h⟩
      · exact Or.inr ⟨c', List.mem_cons_of_mem c hc', h⟩
    · rintro (h | ⟨c', hc', h⟩)
      · exact Or.inl (Or.inl h)
      · rcases List.mem_cons.1 hc' with rfl | hc'
        · exact Or.inl (Or.inr h)
        · exact Or.inr ⟨c', hc', h⟩

/-- `is_generator` holds exactly when some walked node is a yield. -/
theorem analyze_is_generator_eq (n : Node) :
    (analyze_function_body n).is_generator = (walk n).any isYieldNode := by
  unfold analyze_function_body
  rw [foldl_bodyStep_is_generator]
  rfl

/-- `returns_value` holds exactly when some walked node is a value return. -/
theorem analyze_returns_value_eq (n : Node) :
    (analyze_function_body n).returns_value = (walk n).any returnsValueNode := by
  unfold analyze_function_body
  rw [foldl_bodyStep_returns_value]
  rfl

/-- The raised-exception set contains exactly the names raised by walked
raise statements. -/
theorem analyze_raised_mem (n : Node) (e : String) :
    e ∈ (analyze_function_body n).raised_exceptions ↔
      ∃ c ∈ walk n, raisedNameOf c = some e := by
  unfold analyze_function_body
  rw [foldl_bodyStep_raised_mem]
  simp

/-! ## Remaining helper lemmas -/

theorem analyze_complexity_ge (n : Node) : 1 ≤ (analyze_function_body n).complexity := by
  rw [analyze_complexity_eq]
  omega

/-- Every record collected by the `visit_nodes` walker has complexity at
least one. -/
theorem visit_records_complexity_ge :
    ∀ (parent : Option String) (lvl : Nat) (n : Node),
      ∀ r ∈ visitNode parent lvl n, 1 ≤ r.complexity := by
  refine visitNode.induct
    (fun p lvl n => ∀ r ∈ visitNode p lvl n, 1 ≤ r.complexity)
    (fun p lvl l => ∀ r ∈ visitBody p lvl l, 1 ≤ r.complexity)
    ?_ ?_ ?_ ?_ ?_ ?_ ?_
  · intro p lvl name args body ih r hr
    simp only [visitNode, List.mem_cons] at hr
    rcases hr with rfl | hr
    · simpa [mkFuncRecord] using analyze_complexity_ge (.functionDef name args body)
    · exact ih r hr
  · intro p lvl name args body ih r hr
    simp only [visitNode, List.mem_cons] at hr
    rcases hr with rfl | hr
    · simpa [mkFuncRecord] using analyze_complexity_ge (.asyncFunctionDef name args body)
    · exact ih r hr
  · intro p lvl name body ih r hr
    exact ih r hr
  · intro p lvl body ih r hr
    exact ih r hr
  · intro t p lvl h1 h2 h3 h4 r hr
    cases t
    case functionDef n a b => exact (h1 n a b rfl).elim
    case asyncFunctionDef n a b => exact (h2 n a b rfl).elim
    case classDef n b => exact (h3 n b rfl).elim
    case module b => exact (h4 b rfl).elim
    all_goals simp [visitNode] at hr
  · intro p lvl r hr
    simp [visitBody] at hr
  · intro p lvl n ns ih1 ih2 r hr
    rcases List.mem_append.1 hr with h | h
    · exact ih1 r h
    · exact ih2 r h

/-! ## The claims -/

/-- C9: for every function record produced by the extractor (the
`visit_nodes` walk of a parsed module), the `complexity` field is at least 1
(the baseline path of the McCabe-style counter). -/
theorem spec2proof_c9_complexity_ge_one (tree : Node) (r : FuncRecord)
    (hr : r ∈ extract_file_records tree) : 1 ≤ r.complexity :=
  visit_records_complexity_ge none 0 tree r hr

/-- C9 witness: the record of `def f(): pass` in a one-function module. -/
theorem spec2proof_c9_witness :
    (mkFuncRecord none 0 false "f" [] [Node.passStmt]) ∈
        extract_file_records (.module [.functionDef "f" [] [.passStmt]]) ∧
      1 ≤ (mkFuncRecord none 0 false "f" [] [Node.passStmt]).complexity := by
  refine ⟨by simp [extract_file_records, visitNode, visitBody], ?_⟩
  exact spec2proof_c9_complexity_ge_one (.module [.functionDef "f" [] [.passStmt]]) _
    (by simp [extract_file_records, visitNode, visitBody])

/-- The decision-point kinds enumerated by the C7 claim text: conditional
branch, loop INCLUDING comprehension-style and async variants, exception
handler, with/context block, boolean combinator, conditional expression.
(Per the claim a comprehension clause counts as a loop; the bare `try`
statement is not in the claim's list.) -/
def spec_decision_node : Node → Bool
  | .ifStmt .. | .forStmt .. | .asyncForStmt .. | .whileStmt ..
  | .comprehension .. | .exceptHandler .. | .withStmt .. | .asyncWithStmt ..
  | .boolOp .. | .ifExp .. => true
  | _ => false

/-- `def f(xs): return [x for x in xs]` - a function whose body is a single
list comprehension. -/
def comprehensionOnlyFunc : Node :=
  .functionDef "f" ["xs"]
    [.returnStmt (some (.listComp (.nameExpr "x")
      [.comprehension (.nameExpr "x") (.nameExpr "xs") []]))]

/-- C7 counterexample: on a function whose body is a single list
comprehension, the extractor computes complexity 1, but the claim's
decision-point count (which includes comprehension-style loops) demands
`1 + 1 = 2`. -/
theorem spec2proof_c7_counterexample :
    (analyze_function_body comprehensionOnlyFunc).complexity = 1 ∧
    1 + (walk comprehensionOnlyFunc).countP spec_decision_node = 2 ∧
    ¬ ((analyze_function_body comprehensionOnlyFunc).complexity
        = 1 + (walk comprehensionOnlyFunc).countP spec_decision_node) := by
  have h1 : (analyze_function_body comprehensionOnlyFunc).complexity = 1 := rfl
  have h2 : 1 + (walk comprehensionOnlyFunc).countP spec_decision_node = 2 := rfl
  refine ⟨h1, h2, fun h => ?_⟩
  rw [h1, h2] at h
  exact absurd h (by decide)

/-- C7 (amended): the extractor's complexity is exactly 1 plus the number of
`If`, `For`/`AsyncFor`, `While`, `Try`, `ExceptHandler`, `With`/`AsyncWith`,
`BoolOp` and `IfExp` nodes anywhere in the walked body (nested scopes
included, each node counted once where it occurs); comprehension-style loops
are not counted, and a `try` statement counts in addition to each of its
handlers. -/
theorem spec2proof_c7_complexity_formula (n : Node) :
    (analyze_function_body n).complexity = 1 + (walk n).countP isComplexityNode :=
  analyze_complexity_eq n

/-- C10: statements inside a lexically nested function's body are attributed
to the enclosing function's record as well - a yield sets the outer
`is_generator`, a value-returning return sets the outer `returns_value`, and
a by-name raise adds to the outer raised-exception set. -/
theorem spec2proof_c10_nested_attribution (outer g : Node) (hg : g ∈ walk outer)
    (hfd : isFuncDefNode g = true) :
    (∀ y ∈ walkList (funcBody g), isYieldNode y = true →
        (analyze_function_body outer).is_generator = true) ∧
    (∀ y ∈ walkList (funcBody g), returnsValueNode y = true →
        (analyze_function_body outer).returns_value = true) ∧
    (∀ y ∈ walkList (funcBody g), ∀ e, raisedNameOf y = some e →
        e ∈ (analyze_function_body outer).raised_exceptions) := by
  have hsub : ∀ y ∈ walkList (funcBody g), y ∈ walk outer := by
    intro y hy
    exact mem_walk_trans hg (by rw [walk_funcDef hfd]; exact List.mem_cons_of_mem _ hy)
  refine ⟨?_, ?_, ?_⟩
  · intro y hy hyield
    rw [analyze_is_generator_eq]
    exact List.any_eq_true.2 ⟨y, hsub y hy, hyield⟩
  · intro y hy hret
    rw [analyze_returns_value_eq]
    exact List.any_eq_true.2 ⟨y, hsub y hy, hret⟩
  · intro y hy e he
    exact (analyze_raised_mem outer e).2 ⟨y, hsub y hy, he⟩

/-- An outer function with a nested function whose body yields, returns 1 and
raises `ValueError()`. -/
def outerWithNested : Node :=
  .functionDef "outer" []
    [.functionDef "inner" []
      [.exprStmt (.yieldExpr none),
       .returnStmt (some (.constOther "1")),
       .raiseStmt (some (.callExpr (.nameExpr "ValueError") []))]]

/-- C10 witness: the nested yield/return/raise all show up on the outer
function's analysis. -/
theorem spec2proof_c10_witness :
    (analyze_function_body outerWithNested).is_generator = true ∧
    (analyze_function_body outerWithNested).returns_value = true ∧
    "ValueError" ∈ (analyze_function_body outerWithNested).raised_exceptions := by
  have h := spec2proof_c10_nested_attribution outerWithNested
    (.functionDef "inner" []
      [.exprStmt (.yieldExpr none),
       .returnStmt (some (.constOther "1")),
       .raiseStmt (some (.callExpr (.nameExpr "ValueError") []))])
    (by simp [outerWithNested, walk, walkList, walkOpt]) rfl
  refine ⟨h.1 (.yieldExpr none) ?_ rfl,
          h.2.1 (.returnStmt (some (.constOther "1"))) ?_ rfl,
          h.2.2 (.raiseStmt (some (.callExpr (.nameExpr "ValueError") []))) ?_ "ValueError" rfl⟩
  all_goals simp [funcBody, walk, walkList, walkOpt]

/-- C6: the validator's documented-parameter extraction does not read its
`declared_style` argument - all three strategies run unconditionally and are
unioned - so any two styles yield the same set. -/
theorem spec2proof_c6_style_independent (docstring : String) (s1 s2 : String) :
    extract_documented_params docstring s1 = extract_documented_params docstring s2 := rfl

/-- C8 counterexample: for an empty candidate the early return leaves the
`confidence_score` at its dataclass default 1.0 - not the zero the claim
asserts. -/
theorem spec2proof_c8_counterexample :
    (validate_docstring "" { args := [⟨"a"⟩, ⟨"b"⟩], returns_value := true } "google").confidence_score = 1 ∧
    ((validate_docstring "" { args := [⟨"a"⟩, ⟨"b"⟩], returns_value := true } "google").confidence_score ≠ 0) := by
  refine ⟨rfl, fun h => ?_⟩
  have h1 : (validate_docstring "" { args := [⟨"a"⟩, ⟨"b"⟩], returns_value := true } "google").confidence_score = 1 := rfl
  rw [h1] at h
  exact absurd h (by norm_num)

/-- C8 (amended): for an empty candidate docstring, validation immediately
returns an invalid result whose issue list is exactly one Error with code
`EMPTY_DOCSTRING`; the confidence field keeps the dataclass default 1.0
(it is not set to zero). -/
theorem spec2proof_c8_empty_docstring (meta : FuncMeta) (style : String) :
    validate_docstring "" meta style =
      { is_valid := false
        issues := [{ severity := "error", code := "EMPTY_DOCSTRING", message := "Docstring is empty" }]
        confidence_score := 1 } := rfl

/-- C2: the documentation-correctness score, restated in the claim's case
order: 0 when undocumented; 100 when documented with no declared parameters
and none referenced; 50 when parameters are referenced but none declared; 60
when parameters are declared but none referenced; otherwise the matched
fraction of declared parameters times 100 minus 10 per
documented-but-nonexistent name, clamped to [0, 100]. -/
theorem spec2proof_c2_doc_correctness (docstring : String) (code_params : List String)
    (style : String) :
    compute_doc_correctness docstring code_params style =
      (if docstring = "" then 0
       else if code_params = [] ∧ metrics_extract_docstring_params docstring style = [] then 100
       else if code_params = [] then 50
       else if metrics_extract_docstring_params docstring style = [] then 60
       else max 0 (min 100
         ((((pyDedup code_params).filter (· ∈ metrics_extract_docstring_params docstring style)).length : ℚ)
             / ((pyDedup code_params).length : ℚ) * 100
           - ((metrics_extract_docstring_params docstring style).filter (· ∉ pyDedup code_params)).length * 10))) := by
  simp only [compute_doc_correctness]
  split_ifs <;> first | rfl | tauto

/-- A wrapper-extraction hook that never fires; the concrete texts cleaned
below never start with `def ` or `class `, so the hook is not consulted. -/
def noWrapperExtract : List Char → Option (List Char) := fun _ => none

/-- C3 counterexample: `clean` is not idempotent. On
`"Sure! line\nSure! second\nBody."` the first clean strips only the first
filler line (the pattern is anchored, not MULTILINE) and promotes
`"Sure! second"` to the summary line (appending a period); the second clean
then strips that line too, so `clean(clean(x)) ≠ clean(x)`. -/
theorem spec2proof_c3_counterexample :
    clean_docstring noWrapperExtract "Sure! line\nSure! second\nBody.".data none
        = "Sure! second.\nBody.".data ∧
    clean_docstring noWrapperExtract "Sure! second.\nBody.".data none = "Body.".data ∧
    clean_docstring noWrapperExtract
        (clean_docstring noWrapperExtract "Sure! line\nSure! second\nBody.".data none) none
      ≠ clean_docstring noWrapperExtract "Sure! line\nSure! second\nBody.".data none := by
  have h1 : clean_docstring noWrapperExtract "Sure! line\nSure! second\nBody.".data none
      = "Sure! second.\nBody.".data := rfl
  have h2 : clean_docstring noWrapperExtract "Sure! second.\nBody.".data none
      = "Body.".data := rfl
  refine ⟨h1, h2, fun h => ?_⟩
  rw [h1, h2] at h
  exact absurd h (by decide)

/-- C3 (amended): `clean` is deterministic (a pure function of its inputs),
and `clean(clean(x)) = clean(x)` holds on representative raw generated texts
(conversational chatter, third-person summaries, uncapitalized or
unterminated summaries, structurally stripped sections) - but not for every
input: a cleaned text whose new first line again matches a filler opener is
cleaned further by a second pass. -/
theorem spec2proof_c3_idempotent_on_corpus :
    (clean_docstring noWrapperExtract
        (clean_docstring noWrapperExtract "Sure! Here is the docstring:\nSummary.".data none) none
      = clean_docstring noWrapperExtract "Sure! Here is the docstring:\nSummary.".data none) ∧
    (clean_docstring noWrapperExtract
        (clean_docstring noWrapperExtract "Calculates the sum.".data none) none
      = clean_docstring noWrapperExtract "Calculates the sum.".data none) ∧
    (clean_docstring noWrapperExtract
        (clean_docstring noWrapperExtract "lower case summary".data none) none
      = clean_docstring noWrapperExtract "lower case summary".data none) ∧
    (clean_docstring noWrapperExtract
        (clean_docstring noWrapperExtract "Summary.\n\nReturns:\n    int: Value.\n".data
          (some ⟨false, false, [], []⟩)) (some ⟨false, false, [], []⟩)
      = clean_docstring noWrapperExtract "Summary.\n\nReturns:\n    int: Value.\n".data
          (some ⟨false, false, [], []⟩)) := ⟨rfl, rfl, rfl, rfl⟩

/-- C4 counterexample: on a parse failure the structural-fact scan leaves
`raised_exceptions` empty (the `except` branch sets only `has_return` and
`has_yield`), and the cleaning pipeline therefore strips the Raises section
of a docstring accompanying an unparseable snippet - contradicting both the
claimed all-three fail-open and the claimed never-stripping. -/
theorem spec2proof_c4_counterexample :
    (analyze_code_metadata none).raised_exceptions = [] ∧
    containsSubL "Raises:".data "Summary.\n\nRaises:\n    ValueError: Bad.\n".data = true ∧
    containsSubL "Raises:".data
        (clean_docstring noWrapperExtract "Summary.\n\nRaises:\n    ValueError: Bad.\n".data
          (some (analyze_code_metadata none))) = false := ⟨rfl, rfl, rfl⟩

/-- C4 (amended): on a parse failure the scan fail-opens only return and
yield (`has_return = has_yield = true`, `raised_exceptions` empty, `params`
empty), so for an unparseable snippet the pipeline never strips a Returns or
Yields section - but it does strip Raises sections. -/
theorem spec2proof_c4_fail_open :
    analyze_code_metadata none
        = { has_return := true, has_yield := true, raised_exceptions := [], params := [] } ∧
    (containsSubL "Returns:".data
        (clean_docstring noWrapperExtract
          "Summary.\n\nReturns:\n    int: Val.\n\nYields:\n    it: Val.\n\nRaises:\n    ValueError: Bad.\n".data
          (some (analyze_code_metadata none))) = true ∧
     containsSubL "Yields:".data
        (clean_docstring noWrapperExtract
          "Summary.\n\nReturns:\n    int: Val.\n\nYields:\n    it: Val.\n\nRaises:\n    ValueError: Bad.\n".data
          (some (analyze_code_metadata none))) = true ∧
     containsSubL "Raises:".data
        (clean_docstring noWrapperExtract
          "Summary.\n\nReturns:\n    int: Val.\n\nYields:\n    it: Val.\n\nRaises:\n    ValueError: Bad.\n".data
          (some (analyze_code_metadata none))) = false) := ⟨rfl, rfl, rfl, rfl⟩

/-! ## Lemmas about the validator's issue list -/

/-- The non-empty branch of `validate_docstring`, spelled out. -/
theorem validate_docstring_eq (d : String) (m : FuncMeta) (s : String) (h : d ≠ "") :
    validate_docstring d m s =
      { is_valid := ((validate_parameters d m s ++
            (validate_returns d m s ++ (validate_exceptions d m s ++ validate_pep257 d))).filter
              (fun i => i.severity == "error")).length == 0
        issues := validate_parameters d m s ++
            (validate_returns d m s ++ (validate_exceptions d m s ++ validate_pep257 d))
        confidence_score := pyRound2 (max 0
          (1 - ((validate_parameters d m s ++
              (validate_returns d m s ++ (validate_exceptions d m s ++ validate_pep257 d))).countP
                (fun i => i.severity == "error") : ℚ) * 0.2
             - ((validate_parameters d m s ++
              (validate_returns d m s ++ (validate_exceptions d m s ++ validate_pep257 d))).countP
                (fun i => i.severity == "warning") : ℚ) * 0.05)) } := by
  unfold validate_docstring
  rw [if_neg h]

theorem nodup_setAdd {l : List String} {x : String} (h : l.Nodup) : (setAdd l x).Nodup := by
  unfold setAdd
  split
  · exact h
  · rename_i hx
    simp [List.nodup_append, h, hx]

theorem nodup_addAll {xs l : List String} (h : l.Nodup) : (addAll l xs).Nodup := by
  induction xs generalizing l with
  | nil => exact h
  | cons a t ih => exact ih (nodup_setAdd h)

theorem nodup_extract_documented_params (d s : String) :
    (extract_documented_params d s).Nodup :=
  nodup_addAll (nodup_addAll (nodup_addAll List.nodup_nil))

theorem nodup_expectedParams (m : FuncMeta) : (expectedParams m).Nodup := by
  unfold expectedParams
  generalize m.args = args
  have aux : ∀ (l : List String), l.Nodup →
      (args.foldl (fun s a =>
        let n := lstripStars a.name
        if n != "" && n != "self" && n != "cls" then setAdd s n else s) l).Nodup := by
    induction args with
    | nil => exact fun l hl => hl
    | cons a t ih =>
      intro l hl
      simp only [List.foldl_cons]
      split
      · exact ih _ (nodup_setAdd hl)
      · exact ih _ hl
  exact aux [] List.nodup_nil

/-- Middle-segment cancellation for string concatenation. -/
theorem string_append_mid_inj {a b p q : String} (h : a ++ p ++ b = a ++ q ++ b) : p = q := by
  have hd : (a.data ++ p.data) ++ b.data = (a.data ++ q.data) ++ b.data := by
    have := congrArg String.data h
    simpa [String.data_append] using this
  have h1 : a.data ++ p.data = a.data ++ q.data := List.append_cancel_right hd
  have h2 : p.data = q.data := List.append_cancel_left h1
  cases p
  cases q
  simp only [String.data] at h2
  rw [h2]

theorem missingParamIssue_inj {p q : String} (h : missingParamIssue p = missingParamIssue q) :
    p = q := by
  have hm := congrArg ValidationIssue.message h
  simp only [missingParamIssue] at hm
  exact string_append_mid_inj hm

theorem extraParamIssue_inj {p q : String} (h : extraParamIssue p = extraParamIssue q) :
    p = q := by
  have hm := congrArg ValidationIssue.message h
  simp only [extraParamIssue] at hm
  exact string_append_mid_inj hm

theorem extra_ne_missing (q p : String) : extraParamIssue q ≠ missingParamIssue p := by
  intro h
  have := congrArg ValidationIssue.severity h
  simp [extraParamIssue, missingParamIssue] at this

/-- Counting an injectively mapped element. -/
theorem count_map_inj {f : String → ValidationIssue}
    (hf : ∀ {a b : String}, f a = f b → a = b) (l : List String) (p : String) :
    (l.map f).count (f p) = l.count p := by
  induction l with
  | nil => simp
  | cons a t ih =>
    simp only [List.map_cons, List.count_cons, ih]
    by_cases h : a = p
    · subst h; simp
    · have : ¬ (f a == f p) = true := by
        simp only [beq_iff_eq]
        exact fun hc => h (hf hc)
      simp [h, this]

theorem count_eq_zero_of_ne {l : List String} {f : String → ValidationIssue}
    {x : ValidationIssue} (hx : ∀ q, f q ≠ x) : (l.map f).count x = 0 := by
  rw [List.count_eq_zero]
  intro hm
  rcases List.mem_map.1 hm with ⟨q, _, hq⟩
  exact hx q hq

/-- Every issue emitted by `_validate_returns` carries one of its three
codes. -/
theorem validate_returns_codes (d : String) (m : FuncMeta) (s : String) :
    ∀ i ∈ validate_returns d m s,
      i.code = "MISSING_RETURN" ∨ i.code = "UNNECESSARY_RETURN" ∨ i.code = "MISSING_YIELDS" := by
  intro i hi
  simp only [validate_returns] at hi
  split_ifs at hi <;> simp_all

/-- Every issue emitted by `_validate_exceptions` carries code
`EXTRA_EXCEPTION`. -/
theorem validate_exceptions_codes (d : String) (m : FuncMeta) (s : String) :
    ∀ i ∈ validate_exceptions d m s, i.code = "EXTRA_EXCEPTION" := by
  intro i hi
  simp only [validate_exceptions, List.mem_filterMap] at hi
  obtain ⟨exc, _, he⟩ := hi
  split_ifs at he <;>
    first
      | exact Option.noConfusion he
      | (injection he with he; rw [← he])

/-- A member of a conditionally emitted singleton is that element. -/
theorem eq_of_mem_ite_singleton {c : Prop} [Decidable c] {x i : ValidationIssue}
    (h : i ∈ (if c then [x] else [])) : i = x := by
  split at h
  · simpa using h
  · exact absurd h (List.not_mem_nil i)

/-- Every issue emitted by `_validate_pep257` carries one of its three
codes. -/
theorem validate_pep257_codes (d : String) :
    ∀ i ∈ validate_pep257 d,
      i.code = "D400" ∨ i.code = "D403" ∨ i.code = "D404" := by
  intro i hi
  simp only [validate_pep257] at hi
  rcases List.mem_append.1 hi with h | h
  · exact Or.inl (by rw [eq_of_mem_ite_singleton h])
  · rcases List.mem_append.1 h with h2 | h2
    · exact Or.inr (Or.inl (by rw [eq_of_mem_ite_singleton h2]))
    · exact Or.inr (Or.inr (by rw [eq_of_mem_ite_singleton h2]))

/-- The parameter check's issue list, spelled out. -/
theorem validate_parameters_eq (d : String) (m : FuncMeta) (s : String) :
    validate_parameters d m s =
      ((expectedParams m).filter (· ∉ extract_documented_params d s)).map missingParamIssue ++
      ((extract_documented_params d s).filter (· ∉ expectedParams m)).map extraParamIssue := rfl

theorem missingParamIssue_code (p : String) : (missingParamIssue p).code = "MISSING_PARAM" := rfl

theorem extraParamIssue_code (p : String) : (extraParamIssue p).code = "EXTRA_PARAM" := rfl

/-- An issue of a list whose codes avoid `c` is never counted as an issue
with code `c`. -/
theorem count_eq_zero_of_codes {l : List ValidationIssue} {x : ValidationIssue}
    (hl : ∀ i ∈ l, i.code ≠ x.code) : l.count x = 0 := by
  rw [List.count_eq_zero]
  intro hm
  exact hl x hm rfl

theorem countP_code_eq_zero_of_codes {l : List ValidationIssue} {c : String}
    (hl : ∀ i ∈ l, i.code ≠ c) : l.countP (fun i => i.code == c) = 0 := by
  rw [List.countP_eq_zero]
  intro i hi
  simpa using hl i hi

/-- C1: for every non-empty candidate docstring, the validation issue list
contains exactly one `MISSING_PARAM` warning (with its add-documentation
suggestion) per declared parameter name absent from the documented set, and
exactly one `EXTRA_PARAM` error (with its deletion suggestion) per documented
name absent from the declared set; in total, exactly as many
`MISSING_PARAM`-coded issues as missing names and as many `EXTRA_PARAM`-coded
issues as extra names. (The `add(a, b)` instance of the claim is the witness
below.) -/
theorem spec2proof_c1_param_check (docstring : String) (meta : FuncMeta) (style : String)
    (hne : docstring ≠ "") :
    (∀ p : String,
      (validate_docstring docstring meta style).issues.count (missingParamIssue p) =
        if p ∈ expectedParams meta ∧ p ∉ extract_documented_params docstring style then 1 else 0) ∧
    (∀ p : String,
      (validate_docstring docstring meta style).issues.count (extraParamIssue p) =
        if p ∈ extract_documented_params docstring style ∧ p ∉ expectedParams meta then 1 else 0) ∧
    ((validate_docstring docstring meta style).issues.countP (fun i => i.code == "MISSING_PARAM") =
      ((expectedParams meta).filter (· ∉ extract_documented_params docstring style)).length) ∧
    ((validate_docstring docstring meta style).issues.countP (fun i => i.code == "EXTRA_PARAM") =
      ((extract_documented_params docstring style).filter (· ∉ expectedParams meta)).length) := by
  have hiss : (validate_docstring docstring meta style).issues =
      validate_parameters docstring meta style ++
        (validate_returns docstring meta style ++
          (validate_exceptions docstring meta style ++ validate_pep257 docstring)) := by
    rw [validate_docstring_eq docstring meta style hne]
  have hretM : ∀ i ∈ validate_returns docstring meta style, i.code ≠ "MISSING_PARAM" := by
    intro i hi
    rcases validate_returns_codes docstring meta style i hi with h | h | h <;> simp [h]
  have hretE : ∀ i ∈ validate_returns docstring meta style, i.code ≠ "EXTRA_PARAM" := by
    intro i hi
    rcases validate_returns_codes docstring meta style i hi with h | h | h <;> simp [h]
  have hexcM : ∀ i ∈ validate_exceptions docstring meta style, i.code ≠ "MISSING_PARAM" := by
    intro i hi
    rw [validate_exceptions_codes docstring meta style i hi]
    simp
  have hexcE : ∀ i ∈ validate_exceptions docstring meta style, i.code ≠ "EXTRA_PARAM" := by
    intro i hi
    rw [validate_exceptions_codes docstring meta style i hi]
    simp
  have hpepM : ∀ i ∈ validate_pep257 docstring, i.code ≠ "MISSING_PARAM" := by
    intro i hi
    rcases validate_pep257_codes docstring i hi with h | h | h <;> simp [h]
  have hpepE : ∀ i ∈ validate_pep257 docstring, i.code ≠ "EXTRA_PARAM" := by
    intro i hi
    rcases validate_pep257_codes docstring i hi with h | h | h <;> simp [h]
  have hmissNd : ((expectedParams meta).filter (· ∉ extract_documented_params docstring style)).Nodup :=
    (nodup_expectedParams meta).filter _
  have hextraNd : ((extract_documented_params docstring style).filter (· ∉ expectedParams meta)).Nodup :=
    (nodup_extract_documented_params docstring style).filter _
  refine ⟨?_, ?_, ?_, ?_⟩
  · intro p
    rw [hiss, validate_parameters_eq, List.count_append, List.count_append, List.count_append,
      List.count_append]
    rw [count_map_inj (fun h => missingParamIssue_inj h),
      count_eq_zero_of_ne (fun q => extra_ne_missing q p),
      count_eq_zero_of_codes (x := missingParamIssue p) (by rw [missingParamIssue_code]; exact hretM),
      count_eq_zero_of_codes (x := missingParamIssue p) (by rw [missingParamIssue_code]; exact hexcM),
      count_eq_zero_of_codes (x := missingParamIssue p) (by rw [missingParamIssue_code]; exact hpepM)]
    by_cases hp : p ∈ (expectedParams meta).filter (· ∉ extract_documented_params docstring style)
    · rw [List.count_eq_one_of_mem hmissNd hp]
      rw [List.mem_filter] at hp
      simp only [decide_eq_true_eq] at hp
      rw [if_pos hp]
    · rw [List.count_eq_zero.2 hp]
      rw [List.mem_filter] at hp
      simp only [decide_eq_true_eq] at hp
      rw [if_neg hp]
  · intro p
    rw [hiss, validate_parameters_eq, List.count_append, List.count_append, List.count_append,
      List.count_append]
    rw [count_map_inj (fun h => extraParamIssue_inj h),
      count_eq_zero_of_ne (fun q h => extra_ne_missing p q h.symm),
      count_eq_zero_of_codes (x := extraParamIssue p) (by rw [extraParamIssue_code]; exact hretE),
      count_eq_zero_of_codes (x := extraParamIssue p) (by rw [extraParamIssue_code]; exact hexcE),
      count_eq_zero_of_codes (x := extraParamIssue p) (by rw [extraParamIssue_code]; exact hpepE)]
    by_cases hp : p ∈ (extract_documented_params docstring style).filter (· ∉ expectedParams meta)
    · rw [List.count_eq_one_of_mem hextraNd hp]
      rw [List.mem_filter] at hp
      simp only [decide_eq_true_eq] at hp
      rw [if_pos hp]
    · rw [List.count_eq_zero.2 hp]
      rw [List.mem_filter] at hp
      simp only [decide_eq_true_eq] at hp
      rw [if_neg hp]
  · rw [hiss, validate_parameters_eq, List.countP_append, List.countP_append, List.countP_append,
      List.countP_append]
    rw [countP_code_eq_zero_of_codes hretM, countP_code_eq_zero_of_codes hexcM,
      countP_code_eq_zero_of_codes hpepM]
    have h1 : (((expectedParams meta).filter (· ∉ extract_documented_params docstring style)).map
        missingParamIssue).countP (fun i => i.code == "MISSING_PARAM") =
        ((expectedParams meta).filter (· ∉ extract_documented_params docstring style)).length := by
      rw [← List.length_map ((expectedParams meta).filter
        (· ∉ extract_documented_params docstring style)) missingParamIssue]
      apply List.countP_eq_length.2
      intro i hi
      rcases List.mem_map.1 hi with ⟨q, _, rfl⟩
      simp [missingParamIssue]
    have h2 : (((extract_documented_params docstring style).filter (· ∉ expectedParams meta)).map
        extraParamIssue).countP (fun i => i.code == "MISSING_PARAM") = 0 := by
      rw [List.countP_eq_zero]
      intro i hi
      rcases List.mem_map.1 hi with ⟨q, _, rfl⟩
      simp [extraParamIssue]
    rw [h1, h2]
    omega
  · rw [hiss, validate_parameters_eq, List.countP_append, List.countP_append, List.countP_append,
      List.countP_append]
    rw [countP_code_eq_zero_of_codes hretE, countP_code_eq_zero_of_codes hexcE,
      countP_code_eq_zero_of_codes hpepE]
    have h1 : (((expectedParams meta).filter (· ∉ extract_documented_params docstring style)).map
        missingParamIssue).countP (fun i => i.code == "EXTRA_PARAM") = 0 := by
      rw [List.countP_eq_zero]
      intro i hi
      rcases List.mem_map.1 hi with ⟨q, _, rfl⟩
      simp [missingParamIssue]
    have h2 : (((extract_documented_params docstring style).filter (· ∉ expectedParams meta)).map
        extraParamIssue).countP (fun i => i.code == "EXTRA_PARAM") =
        ((extract_documented_params docstring style).filter (· ∉ expectedParams meta)).length := by
      rw [← List.length_map ((extract_documented_params docstring style).filter
        (· ∉ expectedParams meta)) extraParamIssue]
      apply List.countP_eq_length.2
      intro i hi
      rcases List.mem_map.1 hi with ⟨q, _, rfl⟩
      simp [extraParamIssue]
    rw [h1, h2]
    omega

/-! ## C5: the confidence formula -/

theorem pyRound2_eq_self_of_mul_int {q : ℚ} (n : ℤ) (h : q * 100 = (n : ℚ)) :
    pyRound2 q = q := by
  unfold pyRound2
  rw [h, round_intCast, div_eq_iff (by norm_num : (100 : ℚ) ≠ 0)]
  exact h.symm

/-- The confidence value is an exact multiple of 1/20, so the 2-decimal
rounding is the identity on it. -/
theorem pyRound2_conf_exact (e w : ℕ) :
    pyRound2 (max 0 (1 - (e : ℚ) * 0.2 - (w : ℚ) * 0.05)) =
      max 0 (1 - (e : ℚ) * 0.2 - (w : ℚ) * 0.05) := by
  apply pyRound2_eq_self_of_mul_int (max 0 (100 - 20 * (e : ℤ) - 5 * (w : ℤ)))
  rw [max_mul_of_nonneg _ _ (by norm_num : (0 : ℚ) ≤ 100), Int.cast_max]
  congr 1
  · norm_num
  · push_cast
    ring

/-- C5: for every non-empty candidate docstring, the confidence equals
`max(0, 1.0 − 0.2×#Errors − 0.05×#Warnings)` rounded to two decimals; it lies
in [0, 1]; and the result is valid exactly when no Error-severity issue is in
the list. -/
theorem spec2proof_c5_confidence (docstring : String) (meta : FuncMeta) (style : String)
    (hne : docstring ≠ "") :
    ((validate_docstring docstring meta style).confidence_score =
      pyRound2 (max 0
        (1 - ((validate_docstring docstring meta style).issues.countP
                (fun i => i.severity == "error") : ℚ) * 0.2
           - ((validate_docstring docstring meta style).issues.countP
                (fun i => i.severity == "warning") : ℚ) * 0.05))) ∧
    0 ≤ (validate_docstring docstring meta style).confidence_score ∧
    (validate_docstring docstring meta style).confidence_score ≤ 1 ∧
    ((validate_docstring docstring meta style).is_valid = true ↔
      ∀ i ∈ (validate_docstring docstring meta style).issues, i.severity ≠ "error") := by
  rw [validate_docstring_eq docstring meta style hne]
  set l := validate_parameters docstring meta style ++
      (validate_returns docstring meta style ++
        (validate_exceptions docstring meta style ++ validate_pep257 docstring)) with hl
  refine ⟨rfl, ?_, ?_, ?_⟩
  · rw [pyRound2_conf_exact]
    exact le_max_left 0 _
  · rw [pyRound2_conf_exact]
    have h1 : (0 : ℚ) ≤ (l.countP (fun i => i.severity == "error") : ℚ) * 0.2 := by positivity
    have h2 : (0 : ℚ) ≤ (l.countP (fun i => i.severity == "warning") : ℚ) * 0.05 := by positivity
    apply max_le (by norm_num)
    linarith
  · constructor
    · intro h i hi hsev
      rw [beq_iff_eq, List.length_eq_zero] at h
      have hmem : i ∈ l.filter (fun i => i.severity == "error") :=
        List.mem_filter.2 ⟨hi, by simp [hsev]⟩
      rw [h] at hmem
      exact absurd hmem (List.not_mem_nil i)
    · intro h
      have hfil : l.filter (fun i => i.severity == "error") = [] := by
        rw [List.filter_eq_nil_iff]
        intro i hi
        simpa using h i hi
      simp [hfil]

/-- C1 witness, the claim's own instance: for `add(a, b)` and a candidate
docstring documenting `a`, `b`, `c`, validation yields exactly one
`Error(EXTRA_PARAM)` referencing `c` and zero `MISSING_PARAM` issues. -/
theorem spec2proof_c1_witness :
    (validate_docstring
        "Add two numbers.\n\n:param a: first\n:param b: second\n:param c: third\n\n:returns: sum\n"
        { args := [⟨"a"⟩, ⟨"b"⟩], returns_value := true } "google").issues.count
        (extraParamIssue "c") = 1 ∧
    (validate_docstring
        "Add two numbers.\n\n:param a: first\n:param b: second\n:param c: third\n\n:returns: sum\n"
        { args := [⟨"a"⟩, ⟨"b"⟩], returns_value := true } "google").issues.countP
        (fun i => i.code == "MISSING_PARAM") = 0 ∧
    (validate_docstring
        "Add two numbers.\n\n:param a: first\n:param b: second\n:param c: third\n\n:returns: sum\n"
        { args := [⟨"a"⟩, ⟨"b"⟩], returns_value := true } "google").issues.countP
        (fun i => i.code == "EXTRA_PARAM") = 1 := by
  have h := spec2proof_c1_param_check
    "Add two numbers.\n\n:param a: first\n:param b: second\n:param c: third\n\n:returns: sum\n"
    { args := [⟨"a"⟩, ⟨"b"⟩], returns_value := true } "google" (by decide)
  refine ⟨?_, ?_, ?_⟩
  · rw [h.2.1 "c", if_pos (by constructor <;> decide)]
  · rw [h.2.2.1]
    rfl
  · rw [h.2.2.2]
    rfl

/-- C5 witness: a clean summary-only docstring with an empty metadata record
- no issues arise, and the theorem's conclusions hold at this input. -/
theorem spec2proof_c5_witness :
    ((validate_docstring "Summary." {} "google").confidence_score =
      pyRound2 (max 0
        (1 - ((validate_docstring "Summary." {} "google").issues.countP
                (fun i => i.severity == "error") : ℚ) * 0.2
           - ((validate_docstring "Summary." {} "google").issues.countP
                (fun i => i.severity == "warning") : ℚ) * 0.05))) ∧
    0 ≤ (validate_docstring "Summary." {} "google").confidence_score ∧
    (validate_docstring "Summary." {} "google").confidence_score ≤ 1 ∧
    ((validate_docstring "Summary." {} "google").is_valid = true ↔
      ∀ i ∈ (validate_docstring "Summary." {} "google").issues, i.severity ≠ "error") :=
  spec2proof_c5_confidence "Summary." {} "google" (by decide)

end AICodeReview
